import Mathlib

/-!
Verification of the knowledge_base coordination substrate (C sources under
`kb_modules/kb_c/postgres/data_structures` and the stream table under
`kb_modules/kb_rust/postgres/data_structures/src/c_ref`).

The SQL statements the C code issues against PostgreSQL are embedded as pure
functions on in-memory tables (lists of row records).  Each operation of the
C code is translated statement by statement:

* transactions are atomic: a committed operation is one state transformation,
  a rolled-back attempt leaves the table untouched;
* store-side failures that the C code branches on (lock-not-available,
  serialization failure 40001/40P01, other fatal errors) are injected through
  an explicit `env` argument, one outcome per loop attempt, mirroring the
  branch structure of the source;
* `usleep` calls are recorded in a `sleeps` trace (seconds as rationals),
  and the number of executed loop bodies is recorded in `attempts`;
* `NOW()` is an explicit `now : Nat` argument, random UUID generation an
  explicit generator argument.

Concurrency (claims about contention between workers) is modelled by the
standard serializability argument: every committed transaction of any worker
is an atomic step, so a concurrent history is a trace of atomic steps; the
`SKIP LOCKED` nondeterminism is captured by step relations that permit any
eligible row to be claimed.
-/

namespace KB

/-! ## Job table (`kb_job_table.c`)

Row of the pre-allocated job pool, §3.4 of the spec:
`(id, path, data, schedule_at, started_at, completed_at, is_active, valid)`. -/

structure JobRow where
  id : Nat
  path : String
  data : String
  schedule_at : Option Nat
  started_at : Option Nat
  completed_at : Option Nat
  is_active : Bool
  valid : Bool
deriving DecidableEq, Repr

/-- `(schedule_at IS NULL OR schedule_at <= NOW())` from the find query of
`peak_job_data`. -/
def schedOk (r : JobRow) (now : Nat) : Prop :=
  r.schedule_at = none ∨ ∃ s, r.schedule_at = some s ∧ s ≤ now

instance (r : JobRow) (now : Nat) : Decidable (schedOk r now) := by
  unfold schedOk; infer_instance

/-- The UPDATE of `peak_job_data`:
`SET started_at = NOW(), is_active = TRUE WHERE id = $1 AND is_active = FALSE
AND valid = TRUE`. -/
def peekUpdate (t : List JobRow) (i now : Nat) : List JobRow :=
  t.map fun r =>
    if r.id = i ∧ r.valid = true ∧ r.is_active = false then
      { r with started_at := some now, is_active := true }
    else r

/-- The UPDATE of `push_job_data`:
`SET data = $1, schedule_at = timezone(UTC, NOW()), started_at = NULL,
completed_at = NULL, valid = TRUE, is_active = FALSE WHERE id = $2`. -/
def pushUpdate (t : List JobRow) (i : Nat) (d : String) (now : Nat) :
    List JobRow :=
  t.map fun r =>
    if r.id = i then
      { r with data := d, schedule_at := some now, started_at := none,
               completed_at := none, valid := true, is_active := false }
    else r

/-- The UPDATE of `mark_job_completed`:
`SET completed_at = NOW(), valid = FALSE, is_active = FALSE WHERE id = $1`. -/
def completeUpdate (t : List JobRow) (i now : Nat) : List JobRow :=
  t.map fun r =>
    if r.id = i then
      { r with completed_at := some now, valid := false, is_active := false }
    else r

/-- The UPDATE of `clear_job_queue`:
`SET schedule_at = NOW(), started_at = NOW(), completed_at = NOW(),
is_active = FALSE, valid = FALSE, data = .. WHERE path = $1`
(the data written is the two-character empty JSON object). -/
def clearUpdate (t : List JobRow) (p : String) (now : Nat) : List JobRow :=
  t.map fun r =>
    if r.path = p then
      { r with schedule_at := some now, started_at := some now,
               completed_at := some now, is_active := false, valid := false,
               data := "\x7b\x7d" }
    else r

/-- Rows counted by `get_free_number` (`WHERE path = $1 AND valid = FALSE`). -/
def countFree (t : List JobRow) (p : String) : Nat :=
  t.countP fun r => decide (r.path = p ∧ r.valid = false)

/-- Queued rows: `valid = TRUE, is_active = FALSE` (§3.4 state table). -/
def countQueued (t : List JobRow) (p : String) : Nat :=
  t.countP fun r => decide (r.path = p ∧ r.valid = true ∧ r.is_active = false)

/-- Active rows: `valid = TRUE, is_active = TRUE` (§3.4 state table). -/
def countActive (t : List JobRow) (p : String) : Nat :=
  t.countP fun r => decide (r.path = p ∧ r.valid = true ∧ r.is_active = true)

/-- Provisioned pool size of a path: the number of rows carrying that path. -/
def countPath (t : List JobRow) (p : String) : Nat :=
  t.countP fun r => decide (r.path = p)

/-- `ORDER BY completed_at ASC` comparison (PostgreSQL default: NULLS LAST). -/
def leCompletedAt (a b : Option Nat) : Bool :=
  match a, b with
  | none, _ => false
  | some _, none => true
  | some x, some y => x ≤ y

/-- The SELECT of `push_job_data`:
`SELECT id WHERE path = $1 AND valid = FALSE ORDER BY completed_at ASC
FOR UPDATE NOWAIT LIMIT 1`. -/
def selectFreeSlot (t : List JobRow) (p : String) : Option JobRow :=
  (t.filter fun r => decide (r.path = p ∧ r.valid = false)).foldl
    (fun acc r =>
      match acc with
      | none => some r
      | some s => if leCompletedAt r.completed_at s.completed_at then some r
                  else some s)
    none

/-- `ORDER BY schedule_at ASC NULLS FIRST` comparison. -/
def leScheduleAt (a b : Option Nat) : Bool :=
  match a, b with
  | none, _ => true
  | some _, none => false
  | some x, some y => x ≤ y

/-- The find query of `peak_job_data`:
`SELECT id, data, schedule_at WHERE path = $1 AND valid = TRUE AND
is_active = FALSE AND (schedule_at IS NULL OR schedule_at <= NOW())
ORDER BY schedule_at ASC NULLS FIRST FOR UPDATE SKIP LOCKED LIMIT 1`. -/
def selectPeekSlot (t : List JobRow) (p : String) (now : Nat) : Option JobRow :=
  (t.filter fun r =>
      decide (r.path = p ∧ r.valid = true ∧ r.is_active = false ∧
              schedOk r now)).foldl
    (fun acc r =>
      match acc with
      | none => some r
      | some s => if leScheduleAt r.schedule_at s.schedule_at then some r
                  else some s)
    none

/-! Committed-transaction views of the four job operations (the state
transformation a successful call performs, used for the conservation
claim). -/

/-- Table transformation of a `push_job_data` call: claim the free slot the
select returns and rewrite it; no free slot leaves the table untouched. -/
def pushJobCore (t : List JobRow) (p d : String) (now : Nat) :
    Int × List JobRow :=
  match selectFreeSlot t p with
  | none => (-1, t)
  | some r => (0, pushUpdate t r.id d now)

/-- Table transformation of a `peak_job_data` call. -/
def peekJobCore (t : List JobRow) (p : String) (now : Nat) :
    Option (Nat × String) × List JobRow :=
  match selectPeekSlot t p now with
  | none => (none, t)
  | some r => (some (r.id, r.data), peekUpdate t r.id now)

/-- Table transformation of a `mark_job_completed` call. -/
def completeJobCore (t : List JobRow) (i now : Nat) : Int × List JobRow :=
  if t.any fun r => r.id == i then (0, completeUpdate t i now)
  else (-1, t)

/-- Table transformation of a `clear_job_queue` call. -/
def clearJobCore (t : List JobRow) (p : String) (now : Nat) :
    Int × List JobRow :=
  (0, clearUpdate t p now)

/-! Helper lemmas: every job operation is a per-row rewrite that keeps each
row's `path`, so the row count of every path is invariant. -/

theorem countPath_map_of_path_eq (t : List JobRow) (f : JobRow → JobRow)
    (hf : ∀ r, (f r).path = r.path) (p : String) :
    countPath (t.map f) p = countPath t p := by
  unfold countPath
  induction t with
  | nil => rfl
  | cons a l ih =>
    simp only [List.map_cons, List.countP_cons, hf a, ih]

theorem peekUpdate_path (t : List JobRow) (i now : Nat) (p : String) :
    countPath (peekUpdate t i now) p = countPath t p := by
  apply countPath_map_of_path_eq
  intro r
  by_cases h : r.id = i ∧ r.valid = true ∧ r.is_active = false <;>
    simp [h]

theorem pushUpdate_path (t : List JobRow) (i : Nat) (d : String) (now : Nat)
    (p : String) : countPath (pushUpdate t i d now) p = countPath t p := by
  apply countPath_map_of_path_eq
  intro r
  by_cases h : r.id = i <;> simp [h]

theorem completeUpdate_path (t : List JobRow) (i now : Nat) (p : String) :
    countPath (completeUpdate t i now) p = countPath t p := by
  apply countPath_map_of_path_eq
  intro r
  by_cases h : r.id = i <;> simp [h]

theorem clearUpdate_path (t : List JobRow) (q : String) (now : Nat)
    (p : String) : countPath (clearUpdate t q now) p = countPath t p := by
  apply countPath_map_of_path_eq
  intro r
  by_cases h : r.path = q <;> simp [h]

/-- Partition of a path's pool by the slot state of §3.4: every row is free
(`valid = FALSE`), queued (`TRUE`,`FALSE`) or active (`TRUE`,`TRUE`). -/
theorem state_partition (t : List JobRow) (p : String) :
    countFree t p + countQueued t p + countActive t p = countPath t p := by
  unfold countFree countQueued countActive countPath
  induction t with
  | nil => rfl
  | cons a l ih =>
    simp only [List.countP_cons]
    by_cases hp : a.path = p
    · by_cases hv : a.valid = true
      · by_cases ha : a.is_active = true
        · simp [hp, hv, ha] at *; omega
        · simp at ha
          simp [hp, hv, ha] at *; omega
      · simp at hv
        simp [hp, hv] at *; omega
    · simp [hp] at *; omega

/-- **C2.** For every path, each job-queue operation (`push_job_data`,
`peak_job_data`, `mark_job_completed`, `clear_job_queue`) only rewrites
existing rows — never inserting or deleting — so free + queued + active
slot counts equal the provisioned pool size (the row count of the path)
after every committed operation. -/
theorem C2_job_slot_conservation (t : List JobRow) (p d : String)
    (now i : Nat) (q : String) :
    (countFree (pushJobCore t p d now).2 q +
       countQueued (pushJobCore t p d now).2 q +
       countActive (pushJobCore t p d now).2 q = countPath t q) ∧
    (countFree (peekJobCore t p now).2 q +
       countQueued (peekJobCore t p now).2 q +
       countActive (peekJobCore t p now).2 q = countPath t q) ∧
    (countFree (completeJobCore t i now).2 q +
       countQueued (completeJobCore t i now).2 q +
       countActive (completeJobCore t i now).2 q = countPath t q) ∧
    (countFree (clearJobCore t p now).2 q +
       countQueued (clearJobCore t p now).2 q +
       countActive (clearJobCore t p now).2 q = countPath t q) := by
  refine ⟨?_, ?_, ?_, ?_⟩
  · unfold pushJobCore
    cases h : selectFreeSlot t p with
    | none => simp [state_partition]
    | some r => simp [state_partition, pushUpdate_path]
  · unfold peekJobCore
    cases h : selectPeekSlot t p now with
    | none => simp [state_partition]
    | some r => simp [state_partition, peekUpdate_path]
  · unfold completeJobCore
    by_cases h : t.any fun r => r.id == i
    · simp [h, state_partition, completeUpdate_path]
    · simp [h, state_partition]
  · unfold clearJobCore
    simp [state_partition, clearUpdate_path]

/-! ## Retry-loop embeddings of the job operations

Store outcomes injected per attempt.  `push_job_data` branches on the text of
the select error: `could not obtain lock` retries, anything else is fatal. -/

inductive PgOutcome where
  | ok
  | lockNA
  | fatalErr
deriving DecidableEq, Repr

/-- Result of a `push_job_data` call: return code, message buffer, the table
after the call, the `usleep` trace (seconds) and the number of executed loop
bodies. -/
structure PushJobResult where
  code : Int
  message : String
  table : List JobRow
  sleeps : List ℚ
  attempts : Nat
deriving DecidableEq, Repr

def noSlotMsg (p : String) : String :=
  "No available job slot for path " ++ p

def pushFatalMsg (p : String) : String :=
  "Error pushing job data for path " ++ p

def pushExhaustedMsg (p : String) (maxR : Nat) : String :=
  "Could not acquire lock for path " ++ p ++ " after " ++ toString maxR ++
    " attempts"

/-- The `while (attempt < max_retries)` loop of `push_job_data`; `fuel` is
`max_retries - attempt`.  On `lockNA` the C code rolls back, increments
`attempt` and sleeps `retry_delay` (linear) only when another attempt
remains. -/
def pushJobGo (t : List JobRow) (p d : String) (delay : ℚ) (now maxR : Nat) :
    Nat → List PgOutcome → PushJobResult
  | 0, _ => ⟨-1, pushExhaustedMsg p maxR, t, [], 0⟩
  | k + 1, env =>
    match env.headD .ok with
    | .ok =>
      match selectFreeSlot t p with
      | none => ⟨-1, noSlotMsg p, t, [], 1⟩
      | some r => ⟨0, "", pushUpdate t r.id d now, [], 1⟩
    | .lockNA =>
      if k = 0 then ⟨-1, pushExhaustedMsg p maxR, t, [], 1⟩
      else
        let rest := pushJobGo t p d delay now maxR k env.tail
        ⟨rest.code, rest.message, rest.table, delay :: rest.sleeps,
          rest.attempts + 1⟩
    | .fatalErr => ⟨-1, pushFatalMsg p, t, [], 1⟩

/-- `push_job_data` of `kb_job_table.c` with its input validation. -/
def push_job_data (t : List JobRow) (p d : String) (maxR : Nat) (delay : ℚ)
    (now : Nat) (env : List PgOutcome) : PushJobResult :=
  if p = "" then ⟨-1, "Path cannot be empty or NULL", t, [], 0⟩
  else if d = "" then ⟨-1, "Data cannot be empty or NULL", t, [], 0⟩
  else pushJobGo t p d delay now maxR maxR env

/-- Result of a `peak_job_data` call.  `found`, `jobId`, `data` mirror the
`JobInfo` output structure. -/
structure PeekJobResult where
  code : Int
  found : Bool
  jobId : Nat
  data : String
  table : List JobRow
  sleeps : List ℚ
  attempts : Nat
deriving DecidableEq, Repr

/-- The `while (attempt < max_retries)` loop of `peak_job_data`; `fuel` is
`max_retries - attempt`.  The per-attempt env `Bool` tells whether the guarded
claiming UPDATE matched (it can only miss when another worker rewrote the row
between this worker's select and update, i.e. under injected interference).  On
a miss the C code rolls back, increments `attempt` and sleeps
`retry_delay * 1.5 ^ attempt` — with no cap — when another attempt remains. -/
def peekJobGo (t : List JobRow) (p : String) (delay : ℚ) (now maxR : Nat) :
    Nat → List Bool → PeekJobResult
  | 0, _ => ⟨-1, false, 0, "", t, [], 0⟩
  | k + 1, env =>
    match selectPeekSlot t p now with
    | none => ⟨0, false, 0, "", t, [], 1⟩
    | some r =>
      if env.headD true then
        ⟨0, true, r.id, r.data, peekUpdate t r.id now, [], 1⟩
      else if k = 0 then ⟨-1, false, r.id, "", t, [], 1⟩
      else
        let rest := peekJobGo t p delay now maxR k env.tail
        ⟨rest.code, rest.found, rest.jobId, rest.data, rest.table,
          delay * (3 / 2) ^ (maxR - k) :: rest.sleeps, rest.attempts + 1⟩

/-- `peak_job_data` of `kb_job_table.c` with its input validation
(`max_retries < 0 || retry_delay < 0` rejected; `max_retries` is a `Nat`
here so only the delay check remains). -/
def peak_job_data (t : List JobRow) (p : String) (maxR : Nat) (delay : ℚ)
    (now : Nat) (env : List Bool) : PeekJobResult :=
  if p = "" then ⟨-1, false, 0, "", t, [], 0⟩
  else if delay < 0 then ⟨-1, false, 0, "", t, [], 0⟩
  else peekJobGo t p delay now maxR maxR env

/-- A one-slot pool whose slot is queued (`valid = TRUE`), so no free slot
exists. -/
def busyPool : List JobRow :=
  [⟨1, "a", "x", none, none, none, false, true⟩]

/-- **C6 counterexample.** The claim says `push_job_data` on a pool with no
free slot returns a distinct non-fatal code (−2 or equivalent) the caller can
tell apart from a fatal store error.  On the same pool the no-free-slot
outcome and a fatal store error both return −1: the codes coincide (and
neither is −2), so the return code does not distinguish them. -/
theorem C6_counterexample :
    (push_job_data busyPool "a" "d" 3 1 0 [PgOutcome.ok]).code = -1 ∧
    (push_job_data busyPool "a" "d" 3 1 0 [PgOutcome.fatalErr]).code = -1 := by
  constructor <;> decide

/-- **C6 (amended).** If the pool has no free slot for the path,
`push_job_data` fails on the first attempt with code −1 — the same numeric
code as a fatal store error — and is distinguishable only through the message
text (`No available job slot for path ...` versus the fatal message); it
sleeps never, executes exactly one attempt and leaves every row unchanged. -/
theorem C6_push_no_free_slot (t : List JobRow) (p d : String) (maxR : Nat)
    (delay : ℚ) (now : Nat) (env : List PgOutcome)
    (hp : p ≠ "") (hd : d ≠ "") (hm : 1 ≤ maxR)
    (henv : env.headD .ok = .ok) (hfree : selectFreeSlot t p = none) :
    push_job_data t p d maxR delay now env = ⟨-1, noSlotMsg p, t, [], 1⟩ ∧
      noSlotMsg p ≠ pushFatalMsg p := by
  constructor
  · unfold push_job_data
    rw [if_neg hp, if_neg hd]
    obtain ⟨k, rfl⟩ : ∃ k, maxR = k + 1 := ⟨maxR - 1, by omega⟩
    unfold pushJobGo
    rw [henv]
    simp only [hfree]
  · intro h
    have hlen := congrArg String.length h
    have e1 : ("No available job slot for path ").length = 31 := rfl
    have e2 : ("Error pushing job data for path ").length = 32 := rfl
    rw [noSlotMsg, pushFatalMsg, String.length_append, String.length_append,
      e1, e2] at hlen
    omega

/-- Witness for `C6_push_no_free_slot` at the concrete busy pool. -/
theorem C6_push_no_free_slot_witness :
    push_job_data busyPool "a" "d" 3 1 0 [PgOutcome.ok] =
      ⟨-1, noSlotMsg "a", busyPool, [], 1⟩ ∧
      noSlotMsg "a" ≠ pushFatalMsg "a" :=
  C6_push_no_free_slot busyPool "a" "d" 3 1 0 [PgOutcome.ok]
    (by decide) (by decide) (by decide) (by decide) (by decide)

/-- The sleep trace `peak_job_data` emits: after `n` interfered attempts the
sleeps are `delay * 1.5 ^ 1, …, delay * 1.5 ^ n` — the loop applies no cap.
`fuel` generalises the remaining attempt budget for the induction. -/
theorem peekJobGo_sleeps (t : List JobRow) (p : String) (delay : ℚ)
    (now maxR : Nat) (r : JobRow) (hsel : selectPeekSlot t p now = some r) :
    ∀ n fuel, n < fuel → fuel ≤ maxR →
      (peekJobGo t p delay now maxR fuel (List.replicate n false)).sleeps =
        (List.range n).map fun i => delay * (3 / 2) ^ (maxR - fuel + i + 1) := by
  intro n
  induction n with
  | zero =>
    intro fuel hn _
    obtain ⟨k, rfl⟩ : ∃ k, fuel = k + 1 :=
      ⟨fuel - 1, by omega⟩
    unfold peekJobGo
    rw [hsel]
    simp
  | succ m ih =>
    intro fuel hn hfuel
    obtain ⟨k, rfl⟩ : ∃ k, fuel = k + 1 := ⟨fuel - 1, by omega⟩
    have hk : m < k := by omega
    have hk0 : k ≠ 0 := by omega
    unfold peekJobGo
    rw [hsel]
    simp only [List.replicate_succ, List.headD_cons, Bool.false_eq_true,
      if_false, if_neg hk0, List.tail_cons]
    rw [ih k hk (by omega)]
    rw [List.range_succ_eq_map]
    simp only [List.map_cons, List.map_map]
    refine congrArg₂ List.cons ?_ ?_
    · congr 2
      omega
    · apply List.map_congr_left
      intro i _
      simp only [Function.comp_apply]
      congr 2
      omega

/-! ## RPC server table (`kb_rpc_server_table.c`) -/

/-- Fragments of a character sequence cut at every occurrence of `sep`
(consecutive separators and leading/trailing separators yield empty
fragments). -/
def splitTokens (sep : Char) : List Char → List (List Char)
  | [] => [[]]
  | c :: cs =>
    if c = sep then [] :: splitTokens sep cs
    else
      match splitTokens sep cs with
      | [] => [[c]]
      | t :: ts => (c :: t) :: ts

/-- One token of a hierarchical path: first character a letter or underscore,
the rest letters, digits or underscores (the checks of the token loop in
`is_valid_ltree_path`; `isalpha`/`isalnum` are the ASCII classes). -/
def tokenOk (t : List Char) : Bool :=
  match t with
  | [] => false
  | c :: rest =>
    (c.isAlpha || c == '_') && rest.all fun ch => ch.isAlphanum || ch == '_'

/-- `is_valid_ltree_path` of `kb_rpc_server_table.c`.  The C code walks the
tokens `strtok(copy, ".")` yields; `strtok` treats runs of dots as one
separator and never returns an empty token, so only the non-empty fragments
between dots are checked. -/
def is_valid_ltree_path (p : String) : Bool :=
  if p = "" then false
  else ((splitTokens '.' p.data).filter fun t => !t.isEmpty).all tokenOk

/-- Modelled from the spec: §3 requires a hierarchical path to be "a dotted
sequence of label tokens, each matching `[A-Za-z_][A-Za-z0-9_]*`" — so every
fragment between consecutive dots (and before the first and after the last)
must itself be a valid token; empty fragments are rejected.  This is the
contract `is_valid_ltree_path` is compared against. -/
def specValidLtreePath (p : String) : Bool :=
  (splitTokens '.' p.data).all tokenOk

/-- Modelled from the spec: `push_rpc_server_queue` must "validate parse on
input" of a caller-supplied request id via the platform UUID parser, which
accepts exactly the 36-character `8-4-4-4-12` hyphenated hexadecimal form. -/
def isUuidStr (s : String) : Bool :=
  s.data.length == 36 &&
  (List.range 36).all fun i =>
    let c := s.data.getD i ' '
    if i = 8 ∨ i = 13 ∨ i = 18 ∨ i = 23 then c == '-'
    else c.isDigit || ('a' ≤ c && c ≤ 'f') || ('A' ≤ c && c ≤ 'F')

/-- RPC server slot states (§3.5). -/
inductive ServerState where
  | empty
  | new_job
  | processing
  | completed_job
deriving DecidableEq, Repr

/-- RPC server row (§3.5). -/
structure ServerRow where
  id : Nat
  server_path : String
  request_id : String
  rpc_action : String
  request_payload : String
  request_timestamp : Option Nat
  transaction_tag : String
  state : ServerState
  priority : Int
  processing_timestamp : Option Nat
  completed_timestamp : Option Nat
  rpc_client_queue : Option String
deriving DecidableEq, Repr

/-- `ORDER BY priority DESC, request_timestamp ASC` preference: does `r` sort
no later than `s`?  (`ASC` puts NULL timestamps last.) -/
def betterServerSlot (r s : ServerRow) : Bool :=
  if r.priority = s.priority then
    leCompletedAt r.request_timestamp s.request_timestamp
  else decide (s.priority < r.priority)

/-- The SELECT of `push_rpc_server_queue`: `SELECT id WHERE server_path = $1
AND state = empty ORDER BY priority DESC, request_timestamp ASC LIMIT 1
FOR UPDATE`. -/
def selectEmptySlot (t : List ServerRow) (sp : String) : Option ServerRow :=
  (t.filter fun r => decide (r.server_path = sp ∧ r.state = .empty)).foldl
    (fun acc r =>
      match acc with
      | none => some r
      | some s => if betterServerSlot r s then some r else some s)
    none

/-- The row value the claiming UPDATE of `push_rpc_server_queue` produces:
copy the caller fields, `state = new_job`, fresh `request_timestamp`, clear
`completed_timestamp`. -/
def spushRow (r : ServerRow) (sp rid act payload tag : String) (prio : Int)
    (cq : Option String) (now : Nat) : ServerRow :=
  { r with server_path := sp, request_id := rid, rpc_action := act,
           request_payload := payload, transaction_tag := tag,
           priority := prio, rpc_client_queue := cq, state := .new_job,
           request_timestamp := some now, completed_timestamp := none }

/-- The UPDATE of `push_rpc_server_queue` (`WHERE id = $8`). -/
def spushUpdate (t : List ServerRow) (i : Nat) (sp rid act payload tag : String)
    (prio : Int) (cq : Option String) (now : Nat) : List ServerRow :=
  t.map fun r =>
    if r.id = i then spushRow r sp rid act payload tag prio cq now else r

/-- The UPDATE of `peak_server_queue`: `SET state = processing,
processing_timestamp = NOW() WHERE id = $1`. -/
def speekUpdate (t : List ServerRow) (i now : Nat) : List ServerRow :=
  t.map fun r =>
    if r.id = i then
      { r with state := .processing, processing_timestamp := some now }
    else r

/-- The UPDATE of `mark_job_completion`: `SET state = empty,
completed_timestamp = NOW() WHERE id = $1`. -/
def scompleteUpdate (t : List ServerRow) (i now : Nat) : List ServerRow :=
  t.map fun r =>
    if r.id = i then
      { r with state := .empty, completed_timestamp := some now }
    else r

/-- Per-attempt store outcome for `push_rpc_server_queue`: serialization or
deadlock failure (40001/40P01) of the SELECT or the UPDATE — both retried —
or a fatal SELECT error. -/
inductive RpcPushOutcome where
  | allOk
  | selSerial
  | updSerial
  | selFatal
deriving DecidableEq, Repr

/-- Result of a `push_rpc_server_queue` call: the `RETURNING *` row (NULL on
every failure), the table, the sleep trace, the loop bodies executed and the
number of `BEGIN` statements issued. -/
structure RpcPushResult where
  row : Option ServerRow
  table : List ServerRow
  sleeps : List ℚ
  attempts : Nat
  begins : Nat
deriving DecidableEq, Repr

/-- The `while (attempt < max_retries)` loop of `push_rpc_server_queue`;
`fuel` is `max_retries - attempt`.  On a serialization/deadlock failure the
code rolls back, increments `attempt`, and if budget remains sleeps
`fmin(wait_time * 2 ^ attempt, 8.0)`. -/
def pushRpcGo (t : List ServerRow) (sp rid act payload tag : String)
    (prio : Int) (cq : Option String) (w : ℚ) (now maxR : Nat) :
    Nat → List RpcPushOutcome → RpcPushResult
  | 0, _ => ⟨none, t, [], 0, 0⟩
  | k + 1, env =>
    match env.headD .allOk with
    | .allOk =>
      match selectEmptySlot t sp with
      | none => ⟨none, t, [], 1, 1⟩
      | some r =>
        ⟨some (spushRow r sp rid act payload tag prio cq now),
          spushUpdate t r.id sp rid act payload tag prio cq now, [], 1, 1⟩
    | .selFatal => ⟨none, t, [], 1, 1⟩
    | .selSerial =>
      if k = 0 then ⟨none, t, [], 1, 1⟩
      else
        let rest := pushRpcGo t sp rid act payload tag prio cq w now maxR k
          env.tail
        ⟨rest.row, rest.table, min (w * 2 ^ (maxR - k)) 8 :: rest.sleeps,
          rest.attempts + 1, rest.begins + 1⟩
    | .updSerial =>
      match selectEmptySlot t sp with
      | none => ⟨none, t, [], 1, 1⟩
      | some _ =>
        if k = 0 then ⟨none, t, [], 1, 1⟩
        else
          let rest := pushRpcGo t sp rid act payload tag prio cq w now maxR k
            env.tail
          ⟨rest.row, rest.table, min (w * 2 ^ (maxR - k)) 8 :: rest.sleeps,
            rest.attempts + 1, rest.begins + 1⟩

/-- The request-id handling of `push_rpc_server_queue`: absent or empty ids
get a freshly generated UUID, supplied ids must parse; `none` = reject. -/
def ridOf (reqId : Option String) (gen : String) : Option String :=
  match reqId with
  | none => some gen
  | some s => if s = "" then some gen else if isUuidStr s then some s else none

/-- `push_rpc_server_queue` of `kb_rpc_server_table.c`: all input validation
happens before the first `BEGIN` (a result with `begins = 0` and `row = none`
is a pre-transaction rejection). -/
def push_rpc_server_queue (t : List ServerRow) (sp : String)
    (reqId : Option String) (act payload tag : String) (prio : Int)
    (cq : Option String) (maxR : Nat) (w : ℚ) (now : Nat) (genUuid : String)
    (env : List RpcPushOutcome) : RpcPushResult :=
  if ¬ is_valid_ltree_path sp then ⟨none, t, [], 0, 0⟩
  else
    match ridOf reqId genUuid with
    | none => ⟨none, t, [], 0, 0⟩
    | some rid =>
      if act = "" then ⟨none, t, [], 0, 0⟩
      else if tag = "" then ⟨none, t, [], 0, 0⟩
      else if (match cq with
               | some c => !(is_valid_ltree_path c)
               | none => false) then ⟨none, t, [], 0, 0⟩
      else pushRpcGo t sp rid act payload tag prio cq w now maxR maxR env

/-- A server pool with one empty slot whose stored path contains an empty
token (the model treats paths as opaque strings, so the table can hold what
the validation layer should have rejected). -/
def oddServerPool : List ServerRow :=
  [⟨1, "a..b", "", "", "", none, "", .empty, 0, none, none, none⟩]

/-- **C8.** The claim (and §3 of the spec) requires `push_rpc_server_queue`
to reject, before any transaction, every `server_path` containing an empty
token between, before, or after dots.  `is_valid_ltree_path` tokenizes with
`strtok`, which silently skips empty fragments, so `a..b` passes validation
(while the spec grammar rejects it) and the push proceeds into a transaction
(`begins = 1`) and claims a slot. -/
theorem C8_strtok_accepts_empty_tokens :
    is_valid_ltree_path "a..b" = true ∧
    specValidLtreePath "a..b" = false ∧
    (push_rpc_server_queue oddServerPool "a..b" none "act" "\x7b\x7d" "tag" 1
        none 3 1 0 "u" []).begins = 1 ∧
    (push_rpc_server_queue oddServerPool "a..b" none "act" "\x7b\x7d" "tag" 1
        none 3 1 0 "u" []).row.isSome = true := by
  refine ⟨by decide, by decide, by decide, by decide⟩

/-- The sleep trace `push_rpc_server_queue` emits: after `n` serialization
failures the sleeps are `min(w * 2 ^ 1, 8), …, min(w * 2 ^ n, 8)`. -/
theorem pushRpcGo_sleeps (t : List ServerRow) (sp rid act payload tag : String)
    (prio : Int) (cq : Option String) (w : ℚ) (now maxR : Nat) :
    ∀ n fuel, n < fuel → fuel ≤ maxR →
      (pushRpcGo t sp rid act payload tag prio cq w now maxR fuel
          (List.replicate n .selSerial)).sleeps =
        (List.range n).map fun i => min (w * 2 ^ (maxR - fuel + i + 1)) 8 := by
  intro n
  induction n with
  | zero =>
    intro fuel hn _
    obtain ⟨k, rfl⟩ : ∃ k, fuel = k + 1 := ⟨fuel - 1, by omega⟩
    unfold pushRpcGo
    cases h : selectEmptySlot t sp <;> simp [h]
  | succ m ih =>
    intro fuel hn hfuel
    obtain ⟨k, rfl⟩ : ∃ k, fuel = k + 1 := ⟨fuel - 1, by omega⟩
    have hk : m < k := by omega
    have hk0 : k ≠ 0 := by omega
    unfold pushRpcGo
    simp only [List.replicate_succ, List.headD_cons, if_neg hk0,
      List.tail_cons]
    rw [ih k hk (by omega)]
    rw [List.range_succ_eq_map]
    simp only [List.map_cons, List.map_map]
    refine congrArg₂ List.cons ?_ ?_
    · congr 3
      omega
    · apply List.map_congr_left
      intro i _
      simp only [Function.comp_apply]
      congr 3
      omega

/-- **C7 counterexample.** The claim says the sleep before retry attempt `k`
of job acquisition is `min(base_delay * 1.5 ^ k, 8 s)` and in particular
never exceeds 8 seconds.  With `base_delay = 1` and six interfered attempts,
`peak_job_data` sleeps `1.5 ^ 6 = 729/64 ≈ 11.39 s` — more than 8 — where the
claimed formula gives `min(1.5 ^ 6, 8) = 8`. -/
theorem C7_counterexample :
    ((729 : ℚ) / 64) ∈
      (peak_job_data busyPool "a" 8 1 0 (List.replicate 6 false)).sleeps ∧
    ¬ ((729 : ℚ) / 64 ≤ 8) ∧
    min ((1 : ℚ) * (3 / 2) ^ 6) 8 = 8 := by
  refine ⟨?_, by norm_num, by norm_num⟩
  have h := peekJobGo_sleeps busyPool "a" 1 0 8
    ⟨1, "a", "x", none, none, none, false, true⟩ (by decide) 6 8
    (by decide) le_rfl
  unfold peak_job_data
  rw [if_neg (by decide), if_neg (not_lt.mpr zero_le_one), h]
  exact List.mem_map.mpr ⟨5, by decide, by norm_num⟩

/-- **C7 (amended).** The sleep before retry attempt `k` of `peak_job_data`
is `base_delay * 1.5 ^ k` with no cap (so it can exceed 8 seconds), while the
8-second cap `min(base_delay * 2 ^ k, 8 s)` applies to the serializable
`push_rpc_server_queue` backoff. -/
theorem C7_backoff_schedules (t : List JobRow) (p : String) (delay : ℚ)
    (now maxR n : Nat) (r : JobRow) (ts : List ServerRow)
    (sp act payload tag gen : String) (prio : Int) (w : ℚ)
    (nows maxRs ns : Nat)
    (hp : p ≠ "") (hdelay : ¬ delay < 0)
    (hsel : selectPeekSlot t p now = some r) (hn : n < maxR)
    (hsp : is_valid_ltree_path sp = true) (hact : act ≠ "") (htag : tag ≠ "")
    (hns : ns < maxRs) :
    (peak_job_data t p maxR delay now (List.replicate n false)).sleeps =
      (List.range n).map (fun i => delay * (3 / 2) ^ (i + 1)) ∧
    (push_rpc_server_queue ts sp none act payload tag prio none maxRs w nows
        gen (List.replicate ns .selSerial)).sleeps =
      (List.range ns).map fun i => min (w * 2 ^ (i + 1)) 8 := by
  constructor
  · unfold peak_job_data
    rw [if_neg hp, if_neg hdelay]
    rw [peekJobGo_sleeps t p delay now maxR r hsel n maxR hn le_rfl]
    apply List.map_congr_left
    intro i _
    congr 2
    omega
  · unfold push_rpc_server_queue
    rw [if_neg (by simp [hsp])]
    simp only [ridOf]
    rw [if_neg hact, if_neg htag, if_neg (by simp)]
    rw [pushRpcGo_sleeps ts sp gen act payload tag prio none w nows maxRs ns
      maxRs hns le_rfl]
    apply List.map_congr_left
    intro i _
    congr 3
    omega

/-- Witness for `C7_backoff_schedules`: two interfered job-peek attempts
sleep `1.5` and `2.25` seconds; two serialization-failed RPC pushes sleep
`min(2,8)` and `min(4,8)` seconds. -/
theorem C7_backoff_schedules_witness :
    (peak_job_data busyPool "a" 4 1 0 (List.replicate 2 false)).sleeps =
      (List.range 2).map (fun i => 1 * (3 / 2) ^ (i + 1)) ∧
    (push_rpc_server_queue [] "a" none "x" "p" "y" 1 none 4 1 0 "u"
        (List.replicate 2 .selSerial)).sleeps =
      (List.range 2).map fun i => min (1 * 2 ^ (i + 1)) 8 :=
  C7_backoff_schedules busyPool "a" 1 0 4 2
    ⟨1, "a", "x", none, none, none, false, true⟩ [] "a" "x" "p" "y" "u" 1 1
    0 4 2 (by decide) (not_lt.mpr zero_le_one) (by decide) (by decide)
    (by decide) (by decide) (by decide) (by decide)

/-! ## RPC client table (`kb_rpc_client_table.c`) -/

/-- RPC client reply row (§3.6). -/
structure RPCRow where
  id : Nat
  request_id : String
  client_path : String
  server_path : String
  transaction_tag : String
  rpc_action : String
  response_payload : String
  response_timestamp : Option Nat
  is_new_result : Bool
deriving DecidableEq, Repr

/-- The candidate CTE of `push_and_claim_reply_data`: `SELECT id WHERE
client_path = $1 AND is_new_result = FALSE ORDER BY response_timestamp ASC
FOR UPDATE SKIP LOCKED LIMIT 1`. -/
def selectFreeReplySlot (t : List RPCRow) (cp : String) : Option RPCRow :=
  (t.filter fun r => decide (r.client_path = cp ∧ r.is_new_result = false)).foldl
    (fun acc r =>
      match acc with
      | none => some r
      | some s => if leCompletedAt r.response_timestamp s.response_timestamp
                  then some r else some s)
    none

/-- The UPDATE of `push_and_claim_reply_data` on the candidate row. -/
def claimReplyUpdate (t : List RPCRow) (i : Nat)
    (uuid sp act tag payload : String) (now : Nat) : List RPCRow :=
  t.map fun r =>
    if r.id = i then
      { r with request_id := uuid, server_path := sp, rpc_action := act,
               transaction_tag := tag, response_payload := payload,
               is_new_result := true, response_timestamp := some now }
    else r

/-- Per-attempt outcome for the RPC client loops (BEGIN failure and statement
failure take the same retry path in the source). -/
inductive RpcClientOutcome where
  | ok
  | err
deriving DecidableEq, Repr

/-- Result of a `push_and_claim_reply_data` call. -/
structure PushReplyResult where
  code : Int
  table : List RPCRow
  sleeps : List ℚ
  attempts : Nat
deriving DecidableEq, Repr

/-- The `while (attempt <= max_retries)` loop of `push_and_claim_reply_data`;
`fuel` is `max_retries + 1 - attempt`.  On failure the code increments
`attempt` and, while `attempt <= max_retries` still holds, sleeps
`retry_delay` and retries; an empty candidate set returns −2 at once. -/
def pushReplyGo (t : List RPCRow) (cp uuid sp act tag payload : String)
    (delay : ℚ) (now : Nat) : Nat → List RpcClientOutcome → PushReplyResult
  | 0, _ => ⟨-1, t, [], 0⟩
  | k + 1, env =>
    match env.headD .ok with
    | .ok =>
      match selectFreeReplySlot t cp with
      | none => ⟨-2, t, [], 1⟩
      | some r =>
        ⟨0, claimReplyUpdate t r.id uuid sp act tag payload now, [], 1⟩
    | .err =>
      if k = 0 then ⟨-1, t, [], 1⟩
      else
        let rest := pushReplyGo t cp uuid sp act tag payload delay now k
          env.tail
        ⟨rest.code, rest.table, delay :: rest.sleeps, rest.attempts + 1⟩

/-- `push_and_claim_reply_data` of `kb_rpc_client_table.c`; its loop guard is
`attempt <= max_retries`, so the budget is `max_retries + 1` bodies. -/
def push_and_claim_reply_data (t : List RPCRow)
    (cp uuid sp act tag payload : String) (maxR : Nat) (delay : ℚ)
    (now : Nat) (env : List RpcClientOutcome) : PushReplyResult :=
  pushReplyGo t cp uuid sp act tag payload delay now (maxR + 1) env

/-- Under persistently failing statements `push_and_claim_reply_data`
executes its body `fuel` times, sleeps `fuel - 1` times and returns −1. -/
theorem pushReplyGo_all_err (t : List RPCRow)
    (cp uuid sp act tag payload : String) (delay : ℚ) (now : Nat) :
    ∀ k, pushReplyGo t cp uuid sp act tag payload delay now (k + 1)
        (List.replicate (k + 1) .err) =
      ⟨-1, t, List.replicate k delay, k + 1⟩ := by
  intro k
  induction k with
  | zero => rfl
  | succ m ih =>
    show pushReplyGo t cp uuid sp act tag payload delay now (m + 2)
        (List.replicate (m + 2) .err) = _
    unfold pushReplyGo
    simp only [List.replicate_succ, List.headD_cons, List.tail_cons,
      if_neg (Nat.succ_ne_zero m)]
    rw [List.replicate_succ RpcClientOutcome.err m] at ih
    rw [ih]

/-- **C9 counterexample.** The claim says every retried operation executes
its transactional body at least once, and exactly once when
`max_retries = 0`.  `peak_job_data` guards its loop with
`attempt < max_retries`: called with `max_retries = 0` on a pool holding a
runnable job it executes the body zero times and returns the retry-exhausted
error −1. -/
theorem C9_counterexample :
    (peak_job_data busyPool "a" 0 1 0 []).attempts = 0 ∧
    (peak_job_data busyPool "a" 0 1 0 []).code = -1 ∧
    selectPeekSlot busyPool "a" 0 ≠ none := by
  unfold peak_job_data
  rw [if_neg (by decide), if_neg (not_lt.mpr zero_le_one)]
  exact ⟨rfl, rfl, by decide⟩

/-! ## Stream table (`kb_stream_table.c`) -/

/-- Stream ring row (§3.3): `(id, path, data, recorded_at, valid)`. -/
structure StreamRow where
  id : Nat
  path : String
  data : String
  recorded_at : Nat
  valid : Bool
deriving DecidableEq, Repr

/-- `SELECT COUNT(*) WHERE path = $1` — the pre-allocation assertion. -/
def countStreamPath (t : List StreamRow) (p : String) : Nat :=
  t.countP fun r => decide (r.path = p)

/-- `SELECT id WHERE path = $1 ORDER BY recorded_at ASC FOR UPDATE SKIP
LOCKED LIMIT 1` — the oldest record regardless of `valid`. -/
def selectOldest (t : List StreamRow) (p : String) : Option StreamRow :=
  (t.filter fun r => decide (r.path = p)).foldl
    (fun acc r =>
      match acc with
      | none => some r
      | some s => if r.recorded_at ≤ s.recorded_at then some r else some s)
    none

/-- `UPDATE ... SET data = $1, recorded_at = NOW(), valid = TRUE
WHERE id = $2`. -/
def streamUpdate (t : List StreamRow) (i : Nat) (d : String) (now : Nat) :
    List StreamRow :=
  t.map fun r =>
    if r.id = i then { r with data := d, recorded_at := now, valid := true }
    else r

def noRecordsMsg (p : String) : String :=
  "No records found for path=" ++ p ++
    ". Records must be pre-allocated for stream tables."

def streamLockMsg (p : String) (maxR : Nat) : String :=
  "Could not lock any row for path=" ++ p ++ " after " ++ toString maxR ++
    " attempts"

/-- Result of a `push_stream_data` call. -/
structure StreamResult where
  code : Int
  message : String
  table : List StreamRow
  sleeps : List ℚ
  attempts : Nat
deriving DecidableEq, Repr

/-- The `for (attempt = 1; attempt <= max_retries; ...)` loop of
`push_stream_data`; `fuel` is the remaining attempts.  A zero row count
returns the `No records found` error at once (the `strstr` check makes the
precondition failure non-retryable); a lock miss (env `false`) rolls back
and sleeps only when budget remains. -/
def pushStreamGo (t : List StreamRow) (p d : String) (delay : ℚ)
    (now maxR : Nat) : Nat → List Bool → StreamResult
  | 0, _ => ⟨-1, "Unexpected error in push_stream_data", t, [], 0⟩
  | k + 1, env =>
    if countStreamPath t p = 0 then ⟨-1, noRecordsMsg p, t, [], 1⟩
    else if env.headD true then
      match selectOldest t p with
      | some r => ⟨0, "", streamUpdate t r.id d now, [], 1⟩
      | none => ⟨-1, "Failed to update record", t, [], 1⟩
    else if k = 0 then ⟨-1, streamLockMsg p maxR, t, [], 1⟩
    else
      let rest := pushStreamGo t p d delay now maxR k env.tail
      ⟨rest.code, rest.message, rest.table, delay :: rest.sleeps,
        rest.attempts + 1⟩

/-- `push_stream_data` of `kb_stream_table.c` with its input validation. -/
def push_stream_data (t : List StreamRow) (p d : String) (maxR : Nat)
    (delay : ℚ) (now : Nat) (env : List Bool) : StreamResult :=
  if p = "" then ⟨-1, "Path cannot be empty or None", t, [], 0⟩
  else pushStreamGo t p d delay now maxR maxR env

/-- **C5.** On a path with zero pre-allocated stream rows `push_stream_data`
fails fatally on its first attempt with the precondition message: exactly one
loop body runs, no sleep happens and no retry is consumed whatever the retry
budget or lock outcomes, and the table is unchanged. -/
theorem C5_stream_unprovisioned_fatal (t : List StreamRow) (p d : String)
    (maxR : Nat) (delay : ℚ) (now : Nat) (env : List Bool)
    (hp : p ≠ "") (hm : 1 ≤ maxR) (hc : countStreamPath t p = 0) :
    push_stream_data t p d maxR delay now env =
      ⟨-1, noRecordsMsg p, t, [], 1⟩ := by
  unfold push_stream_data
  rw [if_neg hp]
  obtain ⟨k, rfl⟩ : ∃ k, maxR = k + 1 := ⟨maxR - 1, by omega⟩
  unfold pushStreamGo
  rw [if_pos hc]

/-- Witness for `C5_stream_unprovisioned_fatal`: an empty pool for path `a`,
generous retry budget. -/
theorem C5_stream_unprovisioned_fatal_witness :
    push_stream_data [] "a" "d" 5 1 0 [false, false] =
      ⟨-1, noRecordsMsg "a", [], [], 1⟩ :=
  C5_stream_unprovisioned_fatal [] "a" "d" 5 1 0 [false, false]
    (by decide) (by decide) (by decide)

/-! ## Status table (`kb_status_table.c`) -/

/-- Status row (§3.2): `(id, path, data)`; `path` carries a unique index
(the upsert's `ON CONFLICT (path)` requires one). -/
structure StatusRow where
  id : Nat
  path : String
  data : String
deriving DecidableEq, Repr

/-- `INSERT ... ON CONFLICT (path) DO UPDATE SET data = EXCLUDED.data`:
update the existing row of the path in place, or append a fresh row. -/
def statusUpsert (t : List StatusRow) (p d : String) (newId : Nat) :
    List StatusRow :=
  if t.any fun r => r.path == p then
    t.map fun r => if r.path = p then { r with data := d } else r
  else t ++ [⟨newId, p, d⟩]

/-- `get_status_data`: `SELECT data WHERE path = $1 LIMIT 1`. -/
def get_status_data (t : List StatusRow) (p : String) : Except String String :=
  if p = "" then .error "Path cannot be empty or NULL"
  else
    match t.find? fun r => r.path == p with
    | some r => .ok r.data
    | none => .error ("No data found for path: " ++ p)

/-- Result of a `set_status_data` call. -/
structure SetStatusResult where
  code : Int
  success : Bool
  table : List StatusRow
  sleeps : List ℚ
  attempts : Nat
deriving DecidableEq, Repr

/-- The `while (attempt <= retry_count)` loop of `set_status_data`; `fuel`
is `retry_count + 1 - attempt`.  A failed statement (env `false`) rolls back
and, while attempts remain, sleeps `retry_delay` and retries. -/
def setStatusGo (t : List StatusRow) (p d : String) (delay : ℚ)
    (newId : Nat) : Nat → List Bool → SetStatusResult
  | 0, _ => ⟨-1, false, t, [], 0⟩
  | k + 1, env =>
    if env.headD true then ⟨0, true, statusUpsert t p d newId, [], 1⟩
    else if k = 0 then ⟨-1, false, t, [], 1⟩
    else
      let rest := setStatusGo t p d delay newId k env.tail
      ⟨rest.code, rest.success, rest.table, delay :: rest.sleeps,
        rest.attempts + 1⟩

/-- `set_status_data` of `kb_status_table.c` with its input validation. -/
def set_status_data (t : List StatusRow) (p d : String) (retryCount : Nat)
    (delay : ℚ) (newId : Nat) (env : List Bool) : SetStatusResult :=
  if p = "" then ⟨-1, false, t, [], 0⟩
  else if d = "" then ⟨-1, false, t, [], 0⟩
  else if delay < 0 then ⟨-1, false, t, [], 0⟩
  else setStatusGo t p d delay newId (retryCount + 1) env

/-- A `set_status_data` call that returns 0 committed exactly the upsert. -/
theorem setStatusGo_success (t : List StatusRow) (p d : String) (delay : ℚ)
    (newId : Nat) :
    ∀ fuel env, (setStatusGo t p d delay newId fuel env).code = 0 →
      (setStatusGo t p d delay newId fuel env).table =
        statusUpsert t p d newId := by
  intro fuel
  induction fuel with
  | zero => intro env h; simp [setStatusGo] at h
  | succ k ih =>
    intro env h
    unfold setStatusGo at h ⊢
    by_cases he : env.headD true
    · simp only [he, if_true]
    · simp only [he, Bool.false_eq_true, if_false] at h ⊢
      by_cases hk : k = 0
      · simp [hk] at h
      · simp only [if_neg hk] at h ⊢
        exact ih env.tail h

/-- Reading back after the upsert yields the written value. -/
theorem statusUpsert_get (t : List StatusRow) (p d : String) (newId : Nat)
    (hp : p ≠ "") :
    get_status_data (statusUpsert t p d newId) p = .ok d := by
  unfold get_status_data statusUpsert
  rw [if_neg hp]
  by_cases hex : t.any fun r => r.path == p
  · rw [if_pos hex]
    induction t with
    | nil => simp at hex
    | cons a l ih =>
      by_cases ha : a.path = p
      · simp only [List.map_cons, if_pos ha]
        rw [List.find?_cons_of_pos _ (by simp [ha])]
      · have hex2 : (l.any fun r => r.path == p) = true := by
          rcases List.any_eq_true.mp hex with ⟨r, hr, hrp⟩
          rcases List.mem_cons.mp hr with h | h
          · subst h; simp [ha] at hrp
          · exact List.any_eq_true.mpr ⟨r, h, hrp⟩
        simp only [List.map_cons, if_neg ha]
        rw [List.find?_cons_of_neg _ (by simp [ha])]
        exact ih hex2
  · rw [if_neg hex]
    have hnone : t.find? (fun r => r.path == p) = none := by
      rw [List.find?_eq_none]
      intro r hr
      simp only [List.any_eq_true, not_exists, not_and] at hex
      simpa using hex r hr
    rw [List.find?_append, hnone]
    have hfind : List.find? (fun r : StatusRow => r.path == p)
        [⟨newId, p, d⟩] = some (⟨newId, p, d⟩ : StatusRow) :=
      List.find?_cons_of_pos _ (by simp)
    rw [hfind]
    rfl

/-- The upsert keeps at most one row per path when the input table honours
the unique index. -/
theorem statusUpsert_unique (t : List StatusRow) (p d : String) (newId : Nat)
    (hnd : (t.map StatusRow.path).Nodup) :
    (statusUpsert t p d newId).countP (fun r => r.path == p) ≤ 1 := by
  have hcount : t.countP (fun r => r.path == p) ≤ 1 := by
    have h1 : t.countP (fun r => r.path == p) = (t.map StatusRow.path).count p := by
      rw [List.count_eq_countP, List.countP_map]
      exact List.countP_congr fun r _ => Iff.rfl
    rw [h1]
    exact List.nodup_iff_count_le_one.mp hnd p
  unfold statusUpsert
  by_cases hex : t.any fun r => r.path == p
  · rw [if_pos hex]
    have : (t.map fun r => if r.path = p then { r with data := d } else r).countP
        (fun r => r.path == p) = t.countP (fun r => r.path == p) := by
      rw [List.countP_map]
      apply List.countP_congr
      intro r _
      by_cases hr : r.path = p <;> simp [Function.comp, hr]
    rw [this]
    exact hcount
  · rw [if_neg hex]
    rw [List.countP_append]
    have hzero : t.countP (fun r => r.path == p) = 0 := by
      rw [List.countP_eq_zero]
      intro r hr
      simp only [List.any_eq_true, not_exists, not_and] at hex
      simpa using hex r hr
    rw [hzero]
    simp [List.countP_cons]

/-- **C3.** For every path `p` and non-empty `v`, a successful
`set_status_data(p, v)` leaves exactly the upsert in the store:
`get_status_data(p)` returns `v`, and at most one status row exists for `p`
(given the unique index on `path` the upsert relies on). -/
theorem C3_status_round_trip (t : List StatusRow) (p v : String)
    (retryCount : Nat) (delay : ℚ) (newId : Nat) (env : List Bool)
    (hp : p ≠ "") (hv : v ≠ "")
    (hnd : (t.map StatusRow.path).Nodup)
    (hok : (set_status_data t p v retryCount delay newId env).code = 0) :
    get_status_data (set_status_data t p v retryCount delay newId env).table
        p = .ok v ∧
    (set_status_data t p v retryCount delay newId env).table.countP
        (fun r => r.path == p) ≤ 1 := by
  have hvalid : ¬ delay < 0 := by
    intro hlt
    unfold set_status_data at hok
    rw [if_neg hp, if_neg hv, if_pos hlt] at hok
    simp at hok
  have htab : (set_status_data t p v retryCount delay newId env).table =
      statusUpsert t p v newId := by
    unfold set_status_data at hok ⊢
    rw [if_neg hp, if_neg hv, if_neg hvalid] at hok ⊢
    exact setStatusGo_success t p v delay newId (retryCount + 1) env hok
  rw [htab]
  exact ⟨statusUpsert_get t p v newId hp,
    statusUpsert_unique t p v newId hnd⟩

/-- Witness for `C3_status_round_trip`: write `v1` over a one-row store. -/
theorem C3_status_round_trip_witness :
    get_status_data
        (set_status_data [⟨1, "a", "old"⟩] "a" "v1" 3 1 7 [true]).table "a" =
      .ok "v1" ∧
    (set_status_data [⟨1, "a", "old"⟩] "a" "v1" 3 1 7 [true]).table.countP
        (fun r => r.path == "a") ≤ 1 :=
  C3_status_round_trip [⟨1, "a", "old"⟩] "a" "v1" 3 1 7 [true]
    (by decide) (by decide) (by decide) (by decide)

/-! ## Discovery queries (`kb_search.c`) -/

/-- Discovery row (§3.1); the C code reads every column as possibly NULL. -/
structure KBRow where
  id : Nat
  knowledge_base : Option String
  label : Option String
  name : Option String
  properties : Option String
  data : Option String
  has_link : Bool
  has_link_mount : Bool
  path : Option String
deriving DecidableEq, Repr

/-- `kb_query_search_kb`: condition `knowledge_base = $n` (NULL never
equals). -/
def filterKb (kb : String) (r : KBRow) : Bool :=
  r.knowledge_base == some kb

/-- `kb_query_search_label`: condition `label = $n`. -/
def filterLabel (lbl : String) (r : KBRow) : Bool :=
  r.label == some lbl

/-- `kb_query_search_name`: condition `name = $n`. -/
def filterName (n : String) (r : KBRow) : Bool :=
  r.name == some n

/-- `kb_query_search_property_value`: condition
`properties::jsonb @> json_object(key, value)::jsonb`.  The containment test
itself runs inside the store, outside this repository, so it is the abstract
parameter `jc`; a NULL `properties` column satisfies no SQL condition. -/
def filterPropValue (jc : String → String → String → Bool)
    (key value : String) (r : KBRow) : Bool :=
  match r.properties with
  | some ps => jc ps key value
  | none => false

/-- `kb_query_search_path`: condition `path ~ $n`, with the ltree pattern
match `pm` evaluated by the store. -/
def filterPathExpr (pm : String → String → Bool) (expr : String)
    (r : KBRow) : Bool :=
  match r.path with
  | some q => pm q expr
  | none => false

/-- `kb_query_execute`: the CTE chain
`WITH base_data AS (...), filter_0 AS (SELECT * FROM base_data WHERE c_0), …`
applies each condition to the previous stage's rows. -/
def kb_query_execute (t : List KBRow) (filters : List (KBRow → Bool)) :
    List KBRow :=
  filters.foldl (fun acc f => acc.filter f) t

/-- The filter list the `find_*_ids` helpers build, in source order: label
first, then the optional knowledge base, name, property pairs and path
expression. -/
def searchFilters (jc : String → String → String → Bool)
    (pm : String → String → Bool) (lbl : String) (kb name : Option String)
    (props : List (String × String)) (pathExpr : Option String) :
    List (KBRow → Bool) :=
  [filterLabel lbl] ++ (kb.map filterKb).toList ++
    (name.map filterName).toList ++
    (props.map fun kv => filterPropValue jc kv.1 kv.2) ++
    (pathExpr.map (filterPathExpr pm)).toList

/-- Common body of the five `find_*_ids` helpers: run the query, fail
(`NULL`) when nothing matched, otherwise hand back all rows. -/
def find_node_ids (t : List KBRow) (jc : String → String → String → Bool)
    (pm : String → String → Bool) (lbl : String) (kb name : Option String)
    (props : List (String × String)) (pathExpr : Option String) :
    Option (List KBRow) :=
  let rs := kb_query_execute t (searchFilters jc pm lbl kb name props pathExpr)
  if rs.length = 0 then none else some rs

/-- Common body of the five `find_*_id` wrappers: fail unless the match
count is exactly one. -/
def find_node_id (t : List KBRow) (jc : String → String → String → Bool)
    (pm : String → String → Bool) (lbl : String) (kb name : Option String)
    (props : List (String × String)) (pathExpr : Option String) :
    Option KBRow :=
  match find_node_ids t jc pm lbl kb name props pathExpr with
  | none => none
  | some rows => if rows.length ≠ 1 then none else rows.head?

/-- `find_status_node_id` of `kb_search.c` (label `KB_STATUS_FIELD`). -/
def find_status_node_id (t : List KBRow)
    (jc : String → String → String → Bool) (pm : String → String → Bool)
    (kb name : Option String) (props : List (String × String))
    (pathExpr : Option String) : Option KBRow :=
  find_node_id t jc pm "KB_STATUS_FIELD" kb name props pathExpr

/-- `find_stream_id` of `kb_search.c` (label `KB_STREAM_FIELD`). -/
def find_stream_id (t : List KBRow)
    (jc : String → String → String → Bool) (pm : String → String → Bool)
    (kb name : Option String) (props : List (String × String))
    (pathExpr : Option String) : Option KBRow :=
  find_node_id t jc pm "KB_STREAM_FIELD" kb name props pathExpr

/-- `find_job_id` of `kb_search.c` (label `KB_JOB_QUEUE`). -/
def find_job_id (t : List KBRow)
    (jc : String → String → String → Bool) (pm : String → String → Bool)
    (kb name : Option String) (props : List (String × String))
    (pathExpr : Option String) : Option KBRow :=
  find_node_id t jc pm "KB_JOB_QUEUE" kb name props pathExpr

/-- `find_rpc_server_id` of `kb_search.c` (label `KB_RPC_SERVER_FIELD`). -/
def find_rpc_server_id (t : List KBRow)
    (jc : String → String → String → Bool) (pm : String → String → Bool)
    (kb name : Option String) (props : List (String × String))
    (pathExpr : Option String) : Option KBRow :=
  find_node_id t jc pm "KB_RPC_SERVER_FIELD" kb name props pathExpr

/-- `find_rpc_client_id` of `kb_search.c` (label `KB_RPC_CLIENT_FIELD`). -/
def find_rpc_client_id (t : List KBRow)
    (jc : String → String → String → Bool) (pm : String → String → Bool)
    (kb name : Option String) (props : List (String × String))
    (pathExpr : Option String) : Option KBRow :=
  find_node_id t jc pm "KB_RPC_CLIENT_FIELD" kb name props pathExpr

/-- The exact-one discipline of the generic wrapper body, for every label
and filter combination. -/
theorem find_node_id_exact_one (t : List KBRow)
    (jc : String → String → String → Bool) (pm : String → String → Bool)
    (lbl : String) (kb name : Option String)
    (props : List (String × String)) (pathExpr : Option String) :
    (∀ r, kb_query_execute t (searchFilters jc pm lbl kb name props pathExpr)
        = [r] → find_node_id t jc pm lbl kb name props pathExpr = some r) ∧
    ((kb_query_execute t
        (searchFilters jc pm lbl kb name props pathExpr)).length ≠ 1 →
      find_node_id t jc pm lbl kb name props pathExpr = none) := by
  constructor
  · intro r hm
    unfold find_node_id find_node_ids
    rw [hm]
    rfl
  · intro hlen
    unfold find_node_id find_node_ids
    cases hq : kb_query_execute t
        (searchFilters jc pm lbl kb name props pathExpr) with
    | nil => simp [hq]
    | cons a l =>
      rw [hq] at hlen
      simp only [hq]
      rw [if_neg (by simp)]
      show (if (a :: l).length ≠ 1 then none else (a :: l).head?) = none
      rw [if_pos hlen]

/-- **C4.** `find_status_node_id` returns the single matching discovery row
when exactly one row matches its filter combination, and fails (returns no
row) whenever the match count differs from one — both with zero matches
(`find_status_node_ids` already fails) and with several. -/
theorem C4_find_status_exact_one (t : List KBRow)
    (jc : String → String → String → Bool) (pm : String → String → Bool)
    (kb name : Option String) (props : List (String × String))
    (pathExpr : Option String) :
    (∀ r, kb_query_execute t
          (searchFilters jc pm "KB_STATUS_FIELD" kb name props pathExpr)
        = [r] →
      find_status_node_id t jc pm kb name props pathExpr = some r) ∧
    ((kb_query_execute t
        (searchFilters jc pm "KB_STATUS_FIELD" kb name props pathExpr)).length
        ≠ 1 →
      find_status_node_id t jc pm kb name props pathExpr = none) :=
  find_node_id_exact_one t jc pm "KB_STATUS_FIELD" kb name props pathExpr

/-- The `info3_status` discovery row of scenario S6. -/
def kbRowInfo3 : KBRow :=
  ⟨1, some "kb1", some "KB_STATUS_FIELD", some "info3_status", none, none,
    false, false, some "kb1.header1_link.KB_STATUS_FIELD.info3_status"⟩

/-- A second status row with a different name. -/
def kbRowOther : KBRow :=
  ⟨2, some "kb1", some "KB_STATUS_FIELD", some "info2_status", none, none,
    false, false, none⟩

/-- A duplicate of the `info3_status` row under another id. -/
def kbRowInfo3Dup : KBRow :=
  ⟨3, some "kb1", some "KB_STATUS_FIELD", some "info3_status", none, none,
    false, false, none⟩

/-- Witness for `C4_find_status_exact_one`, scenario S6: one `info3_status`
row in `kb1` is returned; with the name absent or duplicated the wrapper
fails. -/
theorem C4_find_status_exact_one_witness :
    find_status_node_id [kbRowInfo3, kbRowOther] (fun _ _ _ => false)
        (fun _ _ => false) (some "kb1") (some "info3_status") [] none =
      some kbRowInfo3 ∧
    find_status_node_id [kbRowOther] (fun _ _ _ => false)
        (fun _ _ => false) (some "kb1") (some "info3_status") [] none =
      none ∧
    find_status_node_id [kbRowInfo3, kbRowInfo3Dup] (fun _ _ _ => false)
        (fun _ _ => false) (some "kb1") (some "info3_status") [] none =
      none :=
  ⟨(C4_find_status_exact_one [kbRowInfo3, kbRowOther] (fun _ _ _ => false)
      (fun _ _ => false) (some "kb1") (some "info3_status") [] none).1
      kbRowInfo3 (by decide),
   (C4_find_status_exact_one [kbRowOther] (fun _ _ _ => false)
      (fun _ _ => false) (some "kb1") (some "info3_status") [] none).2
      (by decide),
   (C4_find_status_exact_one [kbRowInfo3, kbRowInfo3Dup] (fun _ _ _ => false)
      (fun _ _ => false) (some "kb1") (some "info3_status") [] none).2
      (by decide)⟩

/-! ## `clear_reply_queue` (`kb_rpc_client_table.c`) -/

/-- The empty JSON object payload the clears write. -/
def emptyJsonPayload : String := "\x7b\x7d"

/-- The row value the per-row UPDATE of `clear_reply_queue` produces.  Its
parameter binding is `{new_uuid, client_path, empty_json, row_id}` against
`SET request_id = $1, server_path = $2, response_payload = $3,
response_timestamp = NOW(), is_new_result = FALSE WHERE id = $4` — so the
`server_path` column receives the supplied client path. -/
def clearedReplyRow (r : RPCRow) (u cp : String) (now : Nat) : RPCRow :=
  { r with request_id := u, server_path := cp,
           response_payload := emptyJsonPayload,
           response_timestamp := some now, is_new_result := false }

/-- One per-row UPDATE of `clear_reply_queue` (`WHERE id = $4`). -/
def clearReplyUpdate (t : List RPCRow) (i : Nat) (u cp : String)
    (now : Nat) : List RPCRow :=
  t.map fun r => if r.id = i then clearedReplyRow r u cp now else r

/-- Rows a `WHERE id = $4` UPDATE reports as affected. -/
def countId (t : List RPCRow) (i : Nat) : Nat :=
  t.countP fun r => decide (r.id = i)

/-- The per-row update loop of `clear_reply_queue`: walk the selected ids,
generate a fresh UUID for each, update, and accumulate the affected
counts. -/
def clearReplyApply (cp : String) (g : Nat → String) (now : Nat) :
    List RPCRow → List Nat → Nat → List RPCRow × Nat
  | t, [], _ => (t, 0)
  | t, i :: rest, idx =>
    let t2 := clearReplyUpdate t i (g idx) cp now
    let out := clearReplyApply cp g now t2 rest (idx + 1)
    (out.1, countId t i + out.2)

/-- Result of a `clear_reply_queue` call. -/
structure ClearReplyResult where
  count : Int
  table : List RPCRow
  sleeps : List ℚ
  attempts : Nat
deriving DecidableEq, Repr

/-- The `while (attempt < max_retries)` loop of `clear_reply_queue`: lock
all ids of the path `FOR UPDATE NOWAIT` (a 55P03 outcome retries after a
constant sleep), commit 0 when no row matches, otherwise update row by
row. -/
def clearReplyGo (t : List RPCRow) (cp : String) (g : Nat → String)
    (delay : ℚ) (now : Nat) : Nat → List RpcClientOutcome → ClearReplyResult
  | 0, _ => ⟨-1, t, [], 0⟩
  | k + 1, env =>
    match env.headD .ok with
    | .ok =>
      let ids := (t.filter fun r => decide (r.client_path = cp)).map RPCRow.id
      if ids.isEmpty then ⟨0, t, [], 1⟩
      else
        let out := clearReplyApply cp g now t ids 0
        ⟨(out.2 : Int), out.1, [], 1⟩
    | .err =>
      if k = 0 then ⟨-1, t, [], 1⟩
      else
        let rest := clearReplyGo t cp g delay now k env.tail
        ⟨rest.count, rest.table, delay :: rest.sleeps, rest.attempts + 1⟩

/-- `clear_reply_queue` of `kb_rpc_client_table.c`. -/
def clear_reply_queue (t : List RPCRow) (cp : String) (g : Nat → String)
    (maxR : Nat) (delay : ℚ) (now : Nat) (env : List RpcClientOutcome) :
    ClearReplyResult :=
  clearReplyGo t cp g delay now maxR env

/-- A sum of per-element counts that are all one is the element count. -/
theorem sum_map_one {α : Type} (l : List α) (f : α → ℕ)
    (hf : ∀ a ∈ l, f a = 1) : (l.map f).sum = l.length := by
  induction l with
  | nil => rfl
  | cons a l ih =>
    simp only [List.map_cons, List.sum_cons, List.length_cons,
      hf a (List.mem_cons_self a l)]
    rw [ih fun b hb => hf b (List.mem_cons_of_mem a hb)]
    omega

/-- `Forall₂` can be weakened pointwise using membership of the left list. -/
theorem forall₂_imp_mem {α β : Type} {R S : α → β → Prop} :
    ∀ {l₁ : List α} {l₂ : List β}, List.Forall₂ R l₁ l₂ →
      (∀ a ∈ l₁, ∀ b, R a b → S a b) → List.Forall₂ S l₁ l₂ := by
  intro l₁ l₂ h
  induction h with
  | nil => intro _; exact List.Forall₂.nil
  | cons hab _ ih =>
    intro hmem
    exact List.Forall₂.cons
      (hmem _ (List.mem_cons_self _ _) _ hab)
      (ih fun a ha b hr => hmem a (List.mem_cons_of_mem _ ha) b hr)

theorem countId_clearReplyUpdate (t : List RPCRow) (i : Nat) (u cp : String)
    (now j : Nat) : countId (clearReplyUpdate t i u cp now) j = countId t j := by
  unfold countId clearReplyUpdate
  rw [List.countP_map]
  apply List.countP_congr
  intro r _
  by_cases hr : r.id = i <;> simp [Function.comp, hr, clearedReplyRow]

/-- Every step of the per-row loop updates exactly the rows of the processed
ids and returns the sum of their affected counts. -/
theorem clearReplyApply_spec (cp : String) (g : Nat → String) (now : Nat) :
    ∀ (ids : List Nat) (idx : Nat) (t : List RPCRow), ids.Nodup →
      (clearReplyApply cp g now t ids idx).2 =
        (ids.map fun i => countId t i).sum ∧
      List.Forall₂ (fun r s =>
          if r.id ∈ ids then ∃ k, s = clearedReplyRow r (g k) cp now
          else s = r)
        t (clearReplyApply cp g now t ids idx).1 := by
  intro ids
  induction ids with
  | nil =>
    intro idx t _
    refine ⟨rfl, ?_⟩
    exact List.forall₂_same.mpr fun x _ => by simp
  | cons i rest ih =>
    intro idx t hnd
    have hnotin : i ∉ rest := (List.nodup_cons.mp hnd).1
    have hrest : rest.Nodup := (List.nodup_cons.mp hnd).2
    obtain ⟨ihc, ihf⟩ :=
      ih (idx + 1) (clearReplyUpdate t i (g idx) cp now) hrest
    constructor
    · show countId t i + _ = _
      rw [ihc, List.map_cons, List.sum_cons]
      congr 1
      apply congrArg
      apply List.map_congr_left
      intro j _
      exact countId_clearReplyUpdate t i (g idx) cp now j
    · show List.Forall₂ _ t (clearReplyApply cp g now
        (clearReplyUpdate t i (g idx) cp now) rest (idx + 1)).1
      unfold clearReplyUpdate at ihf
      rw [List.forall₂_map_left_iff] at ihf
      refine ihf.imp ?_
      intro r s hrs
      by_cases hri : r.id = i
      · rw [if_pos hri] at hrs
        have hid : (clearedReplyRow r (g idx) cp now).id = r.id := rfl
        rw [if_neg (by rw [hid, hri]; exact hnotin)] at hrs
        rw [if_pos (by rw [hri]; exact List.mem_cons_self _ _)]
        exact ⟨idx, hrs⟩
      · rw [if_neg hri] at hrs
        by_cases hmem : r.id ∈ rest
        · rw [if_pos hmem] at hrs
          rw [if_pos (List.mem_cons_of_mem _ hmem)]
          exact hrs
        · rw [if_neg hmem] at hrs
          rw [if_neg (by
            intro hc
            rcases List.mem_cons.mp hc with h | h
            · exact hri h
            · exact hmem h)]
          exact hrs

/-- **C10.** On success `clear_reply_queue` rewrites every row of the client
path with a freshly generated UUID in `request_id`, the empty JSON object in
`response_payload`, the current time in `response_timestamp`,
`is_new_result = FALSE` — and the supplied client path into the
`server_path` column; `id`, `client_path`, `transaction_tag` and
`rpc_action` stay untouched, rows of other paths are unchanged, and the
return value is the sum of the per-row affected counts, i.e. the number of
rows of the path. -/
theorem C10_clear_reply_queue_effect (t : List RPCRow) (cp : String)
    (g : Nat → String) (maxR : Nat) (delay : ℚ) (now : Nat)
    (env : List RpcClientOutcome)
    (hnd : (t.map RPCRow.id).Nodup) (hm : 1 ≤ maxR)
    (henv : env.headD .ok = .ok) :
    (clear_reply_queue t cp g maxR delay now env).count =
      ((t.countP fun r => decide (r.client_path = cp) : Nat) : Int) ∧
    List.Forall₂ (fun r s =>
        if r.client_path = cp then ∃ k, s = clearedReplyRow r (g k) cp now
        else s = r)
      t (clear_reply_queue t cp g maxR delay now env).table := by
  unfold clear_reply_queue
  obtain ⟨k, rfl⟩ : ∃ k, maxR = k + 1 := ⟨maxR - 1, by omega⟩
  unfold clearReplyGo
  rw [henv]
  by_cases hemp :
      ((t.filter fun r => decide (r.client_path = cp)).map RPCRow.id).isEmpty
  · rw [if_pos hemp]
    have hfil : t.filter (fun r => decide (r.client_path = cp)) = [] := by
      have := List.isEmpty_iff.mp hemp
      exact List.map_eq_nil_iff.mp this
    have hall : ∀ a ∈ t, a.client_path ≠ cp := by
      intro a ha
      have := List.filter_eq_nil_iff.mp hfil a ha
      simpa using this
    constructor
    · have hz : t.countP (fun r => decide (r.client_path = cp)) = 0 := by
        rw [List.countP_eq_length_filter, hfil]
        rfl
      rw [hz]
      rfl
    · exact List.forall₂_same.mpr fun x hx => by rw [if_neg (hall x hx)]
  · rw [if_neg hemp]
    have hidnd :
        ((t.filter fun r => decide (r.client_path = cp)).map RPCRow.id).Nodup :=
      List.Nodup.sublist ((List.filter_sublist t).map RPCRow.id) hnd
    obtain ⟨hc, hf⟩ := clearReplyApply_spec cp g now
      ((t.filter fun r => decide (r.client_path = cp)).map RPCRow.id) 0 t hidnd
    constructor
    · show ((clearReplyApply cp g now t _ 0).2 : Int) = _
      rw [hc]
      have hone : ∀ i ∈ (t.filter fun r =>
          decide (r.client_path = cp)).map RPCRow.id, countId t i = 1 := by
        intro i hi
        have himem : i ∈ t.map RPCRow.id :=
          ((List.filter_sublist t).map RPCRow.id).subset hi
        have hcnt : countId t i = (t.map RPCRow.id).count i := by
          rw [List.count_eq_countP, List.countP_map]
          apply List.countP_congr
          intro r _
          constructor <;> intro h <;> simpa using h
        rw [hcnt]
        exact List.count_eq_one_of_mem hnd himem
      have hlen : ((t.filter fun r =>
          decide (r.client_path = cp)).map RPCRow.id).length =
          t.countP fun r => decide (r.client_path = cp) := by
        rw [List.length_map, List.countP_eq_length_filter]
      rw [sum_map_one _ _ hone, hlen]
    · show List.Forall₂ _ t (clearReplyApply cp g now t _ 0).1
      refine forall₂_imp_mem hf ?_
      intro a ha b hab
      by_cases hcp : a.client_path = cp
      · have hain : a.id ∈ (t.filter fun r =>
            decide (r.client_path = cp)).map RPCRow.id :=
          List.mem_map_of_mem _ (List.mem_filter.mpr ⟨ha, by simp [hcp]⟩)
        rw [if_pos hain] at hab
        rw [if_pos hcp]
        exact hab
      · have hnotin : a.id ∉ (t.filter fun r =>
            decide (r.client_path = cp)).map RPCRow.id := by
          intro hcmem
          rcases List.mem_map.mp hcmem with ⟨r2, hr2, hid⟩
          have hr2m := (List.mem_filter.mp hr2).1
          have hr2cp : r2.client_path = cp := by
            simpa using (List.mem_filter.mp hr2).2
          have heq : a = r2 :=
            List.inj_on_of_nodup_map hnd ha hr2m hid.symm
          rw [heq] at hcp
          exact hcp hr2cp
        rw [if_neg hnotin] at hab
        rw [if_neg hcp]
        exact hab

/-- A concrete UUID-generator stand-in for the witness run. -/
def uuidSeq (k : Nat) : String := toString k

/-- Witness for `C10_clear_reply_queue_effect`: a two-row store where one
row carries the client path. -/
theorem C10_clear_reply_queue_effect_witness :
    (clear_reply_queue
        [⟨1, "q", "c1", "s1", "t1", "a1", "p1", some 5, true⟩,
         ⟨2, "q2", "other", "s2", "t2", "a2", "p2", none, false⟩]
        "c1" uuidSeq 2 1 9 [.ok]).count =
      (([⟨1, "q", "c1", "s1", "t1", "a1", "p1", some 5, true⟩,
         ⟨2, "q2", "other", "s2", "t2", "a2", "p2", none,
           false⟩] : List RPCRow).countP
        (fun r => decide (r.client_path = "c1")) : Int) ∧
    List.Forall₂ (fun r s =>
        if r.client_path = "c1" then
          ∃ k, s = clearedReplyRow r (uuidSeq k) "c1" 9
        else s = r)
      [⟨1, "q", "c1", "s1", "t1", "a1", "p1", some 5, true⟩,
       ⟨2, "q2", "other", "s2", "t2", "a2", "p2", none, false⟩]
      (clear_reply_queue
        [⟨1, "q", "c1", "s1", "t1", "a1", "p1", some 5, true⟩,
         ⟨2, "q2", "other", "s2", "t2", "a2", "p2", none, false⟩]
        "c1" uuidSeq 2 1 9 [.ok]).table :=
  C10_clear_reply_queue_effect
    [⟨1, "q", "c1", "s1", "t1", "a1", "p1", some 5, true⟩,
     ⟨2, "q2", "other", "s2", "t2", "a2", "p2", none, false⟩]
    "c1" uuidSeq 2 1 9 [.ok]
    (by decide) (by decide) (by decide)

/-! ## Concurrent histories (claims C1)

Committed transactions are atomic: every successful `push_job_data`,
`peak_job_data` or `mark_job_completed` call of any worker appears in the
cluster history as one step whose guard is its SELECT condition and whose
effect is its UPDATE.  `SKIP LOCKED` lets a peek claim any eligible row, so
the step relation allows every row satisfying the find query. -/

/-- One committed job-table transaction. -/
inductive JobEvent where
  | push (i : Nat) (p d : String) (now : Nat)
  | peek (i : Nat) (p : String) (now : Nat)
  | complete (i : Nat) (now : Nat)
deriving DecidableEq, Repr

/-- Guard and effect of each committed job transaction, from the SQL of
`kb_job_table.c`: a push claims a `valid = FALSE` row of the path, a peek
claims a queued runnable row, a completion needs only an existing row. -/
inductive JobStep : List JobRow → JobEvent → List JobRow → Prop where
  | push : ∀ (t : List JobRow) (i : Nat) (p d : String) (now : Nat),
      (∃ r ∈ t, r.id = i ∧ r.path = p ∧ r.valid = false) →
      JobStep t (.push i p d now) (pushUpdate t i d now)
  | peek : ∀ (t : List JobRow) (i : Nat) (p : String) (now : Nat),
      (∃ r ∈ t, r.id = i ∧ r.path = p ∧ r.valid = true ∧
        r.is_active = false ∧ schedOk r now) →
      JobStep t (.peek i p now) (peekUpdate t i now)
  | complete : ∀ (t : List JobRow) (i now : Nat),
      (∃ r ∈ t, r.id = i) →
      JobStep t (.complete i now) (completeUpdate t i now)

/-- A serialized history of committed job transactions. -/
inductive JobTrace : List JobRow → List JobEvent → List JobRow → Prop where
  | nil : ∀ t, JobTrace t [] t
  | cons : ∀ (t : List JobRow) (e : JobEvent) (t₂ : List JobRow)
      (es : List JobEvent) (t₃ : List JobRow),
      JobStep t e t₂ → JobTrace t₂ es t₃ → JobTrace t (e :: es) t₃

theorem pushUpdate_ids (t : List JobRow) (i : Nat) (d : String) (now : Nat) :
    (pushUpdate t i d now).map JobRow.id = t.map JobRow.id := by
  unfold pushUpdate
  rw [List.map_map]
  apply List.map_congr_left
  intro r _
  by_cases h : r.id = i <;> simp [Function.comp, h]

theorem peekUpdate_ids (t : List JobRow) (i now : Nat) :
    (peekUpdate t i now).map JobRow.id = t.map JobRow.id := by
  unfold peekUpdate
  rw [List.map_map]
  apply List.map_congr_left
  intro r _
  by_cases h : r.id = i ∧ r.valid = true ∧ r.is_active = false <;>
    simp [Function.comp, h]

theorem completeUpdate_ids (t : List JobRow) (i now : Nat) :
    (completeUpdate t i now).map JobRow.id = t.map JobRow.id := by
  unfold completeUpdate
  rw [List.map_map]
  apply List.map_congr_left
  intro r _
  by_cases h : r.id = i <;> simp [Function.comp, h]

theorem JobStep.ids {t : List JobRow} {e : JobEvent} {t₂ : List JobRow}
    (h : JobStep t e t₂) : t₂.map JobRow.id = t.map JobRow.id := by
  cases h with
  | push i p d now _ => exact pushUpdate_ids t i d now
  | peek i p now _ => exact peekUpdate_ids t i now
  | complete i now _ => exact completeUpdate_ids t i now

/-- All rows of the id are claimed (`valid = TRUE, is_active = TRUE`). -/
def idActive (t : List JobRow) (i : Nat) : Prop :=
  ∀ r ∈ t, r.id = i → (r.valid = true ∧ r.is_active = true)

/-- After a committed peek the claimed id is active (rows are keyed by `id`,
the primary key, hence the `Nodup` hypothesis). -/
theorem idActive_after_peek {t : List JobRow} {i : Nat} {p : String}
    {now : Nat} {t₂ : List JobRow}
    (hnd : (t.map JobRow.id).Nodup)
    (h : JobStep t (.peek i p now) t₂) : idActive t₂ i := by
  cases h with
  | peek a b c hg =>
    obtain ⟨r₀, hr₀m, hr₀i, _, hr₀v, hr₀a, _⟩ := hg
    intro s hs hsi
    unfold peekUpdate at hs
    rcases List.mem_map.mp hs with ⟨r, hrm, hrs⟩
    by_cases hc : r.id = i ∧ r.valid = true ∧ r.is_active = false
    · rw [if_pos hc] at hrs
      rw [← hrs]
      exact ⟨hc.2.1, rfl⟩
    · rw [if_neg hc] at hrs
      subst hrs
      have hri : r.id = i := hsi
      have : r = r₀ :=
        List.inj_on_of_nodup_map hnd hrm hr₀m (by rw [hri, hr₀i])
      subst this
      exact absurd ⟨hri, hr₀v, hr₀a⟩ hc

/-- Only a completion of the id can release a claimed id. -/
theorem idActive_preserved {t : List JobRow} {e : JobEvent}
    {t₂ : List JobRow} {i : Nat}
    (hact : idActive t i) (h : JobStep t e t₂)
    (hne : ∀ now, e ≠ .complete i now) : idActive t₂ i := by
  cases h with
  | push j p d now hg =>
    by_cases hji : j = i
    · subst hji
      obtain ⟨r, hrm, hri, _, hrv⟩ := hg
      exact absurd (hact r hrm hri).1 (by rw [hrv]; exact Bool.false_ne_true)
    · intro s hs hsi
      unfold pushUpdate at hs
      rcases List.mem_map.mp hs with ⟨r, hrm, hrs⟩
      by_cases hc : r.id = j
      · rw [if_pos hc] at hrs
        have : s.id = r.id := by rw [← hrs]
        rw [hsi] at this
        exact absurd (hc ▸ this.symm) hji
      · rw [if_neg hc] at hrs
        subst hrs
        exact hact r hrm hsi
  | peek j p now hg =>
    by_cases hji : j = i
    · subst hji
      obtain ⟨r, hrm, hri, _, _, hra, _⟩ := hg
      exact absurd (hact r hrm hri).2 (by rw [hra]; exact Bool.false_ne_true)
    · intro s hs hsi
      unfold peekUpdate at hs
      rcases List.mem_map.mp hs with ⟨r, hrm, hrs⟩
      by_cases hc : r.id = j ∧ r.valid = true ∧ r.is_active = false
      · rw [if_pos hc] at hrs
        have : s.id = r.id := by rw [← hrs]
        rw [hsi] at this
        exact absurd (hc.1 ▸ this.symm) hji
      · rw [if_neg hc] at hrs
        subst hrs
        exact hact r hrm hsi
  | complete j now2 hg =>
    have hji : j ≠ i := by
      intro hc
      exact hne now2 (by rw [hc])
    intro s hs hsi
    unfold completeUpdate at hs
    rcases List.mem_map.mp hs with ⟨r, hrm, hrs⟩
    by_cases hc : r.id = j
    · rw [if_pos hc] at hrs
      have : s.id = r.id := by rw [← hrs]
      rw [hsi] at this
      exact absurd (hc ▸ this.symm) hji
    · rw [if_neg hc] at hrs
      subst hrs
      exact hact r hrm hsi

/-- A claimed id admits no further peek. -/
theorem no_peek_of_idActive {t : List JobRow} {i : Nat} {p : String}
    {now : Nat} {t₂ : List JobRow}
    (hact : idActive t i) (h : JobStep t (.peek i p now) t₂) : False := by
  cases h with
  | peek a b c hg =>
    obtain ⟨r, hrm, hri, _, _, hra, _⟩ := hg
    exact absurd (hact r hrm hri).2 (by rw [hra]; exact Bool.false_ne_true)

/-- From a state where the id is claimed, any later peek of the id is
preceded by a completion of the id. -/
theorem peek_needs_complete {i : Nat} :
    ∀ (a : List JobEvent) (t : List JobRow) (es : List JobEvent)
      (t₂ : List JobRow), JobTrace t es t₂ → idActive t i →
      ∀ (p : String) (n : Nat) (b : List JobEvent),
        es = a ++ .peek i p n :: b →
        ∃ a1 nc a2, a = a1 ++ JobEvent.complete i nc :: a2 := by
  intro a
  induction a with
  | nil =>
    intro t es t₂ htr hact p n b hes
    subst hes
    cases htr with
    | cons _ _ _ _ _ hstep _ => exact absurd hstep (no_peek_of_idActive hact)
  | cons e a ih =>
    intro t es t₂ htr hact p n b hes
    subst hes
    cases htr with
    | cons _ _ tmid _ _ hstep htail =>
      by_cases hcomp : ∃ nc, e = JobEvent.complete i nc
      · obtain ⟨nc, rfl⟩ := hcomp
        exact ⟨[], nc, a, rfl⟩
      · have hact2 : idActive tmid i := by
          refine idActive_preserved hact hstep ?_
          intro now hcon
          exact hcomp ⟨now, hcon⟩
        obtain ⟨a1, nc, a2, rfl⟩ := ih tmid _ _ htail hact2 p n b rfl
        exact ⟨e :: a1, nc, a2, rfl⟩

/-- Traces split at list concatenation. -/
theorem jobTrace_split :
    ∀ (xs ys : List JobEvent) (t t₂ : List JobRow),
      JobTrace t (xs ++ ys) t₂ →
      ∃ u, JobTrace t xs u ∧ JobTrace u ys t₂ := by
  intro xs
  induction xs with
  | nil => intro ys t t₂ h; exact ⟨t, JobTrace.nil t, h⟩
  | cons e xs ih =>
    intro ys t t₂ h
    cases h with
    | cons _ _ tmid _ _ hstep htail =>
      obtain ⟨u, h1, h2⟩ := ih ys tmid t₂ htail
      exact ⟨u, JobTrace.cons _ _ _ _ _ hstep h1, h2⟩

theorem JobTrace.nodup_ids :
    ∀ (es : List JobEvent) (t t₂ : List JobRow), JobTrace t es t₂ →
      (t.map JobRow.id).Nodup → (t₂.map JobRow.id).Nodup := by
  intro es
  induction es with
  | nil => intro t t₂ h hnd; cases h; exact hnd
  | cons e es ih =>
    intro t t₂ h hnd
    cases h with
    | cons _ _ tmid _ _ hstep htail =>
      exact ih tmid t₂ htail (hstep.ids ▸ hnd)

/-- One committed RPC-server transaction (`kb_rpc_server_table.c`). -/
inductive SEvent where
  | push (i : Nat) (sp rid act payload tag : String) (prio : Int)
      (cq : Option String) (now : Nat)
  | peek (i : Nat) (sp : String) (now : Nat)
  | complete (i : Nat) (sp : String) (now : Nat)
deriving DecidableEq, Repr

/-- Guard and effect of each committed RPC-server transaction: a push claims
an `empty` slot of the path, `peak_server_queue` claims a `new_job` slot,
`mark_job_completion` requires the slot in `processing`. -/
inductive SStep : List ServerRow → SEvent → List ServerRow → Prop where
  | push : ∀ (t : List ServerRow) (i : Nat) (sp rid act payload tag : String)
      (prio : Int) (cq : Option String) (now : Nat),
      (∃ r ∈ t, r.id = i ∧ r.server_path = sp ∧ r.state = .empty) →
      SStep t (.push i sp rid act payload tag prio cq now)
        (spushUpdate t i sp rid act payload tag prio cq now)
  | peek : ∀ (t : List ServerRow) (i : Nat) (sp : String) (now : Nat),
      (∃ r ∈ t, r.id = i ∧ r.server_path = sp ∧ r.state = .new_job) →
      SStep t (.peek i sp now) (speekUpdate t i now)
  | complete : ∀ (t : List ServerRow) (i : Nat) (sp : String) (now : Nat),
      (∃ r ∈ t, r.id = i ∧ r.server_path = sp ∧ r.state = .processing) →
      SStep t (.complete i sp now) (scompleteUpdate t i now)

/-- A serialized history of committed RPC-server transactions. -/
inductive STrace : List ServerRow → List SEvent → List ServerRow → Prop where
  | nil : ∀ t, STrace t [] t
  | cons : ∀ (t : List ServerRow) (e : SEvent) (t₂ : List ServerRow)
      (es : List SEvent) (t₃ : List ServerRow),
      SStep t e t₂ → STrace t₂ es t₃ → STrace t (e :: es) t₃

/-- All rows of the id are in `processing`. -/
def sIdProcessing (t : List ServerRow) (i : Nat) : Prop :=
  ∀ r ∈ t, r.id = i → r.state = .processing

/-- `peak_server_queue` leaves the claimed id in `processing` (its UPDATE is
keyed on `id` alone). -/
theorem sIdProcessing_after_peek {t : List ServerRow} {i : Nat} {sp : String}
    {now : Nat} {t₂ : List ServerRow}
    (h : SStep t (.peek i sp now) t₂) : sIdProcessing t₂ i := by
  cases h with
  | peek a b c hg =>
    intro s hs hsi
    unfold speekUpdate at hs
    rcases List.mem_map.mp hs with ⟨r, hrm, hrs⟩
    by_cases hc : r.id = i
    · rw [if_pos hc] at hrs
      rw [← hrs]
    · rw [if_neg hc] at hrs
      subst hrs
      exact absurd hsi hc

/-- Only `mark_job_completion` of the id can leave `processing`. -/
theorem sIdProcessing_preserved {t : List ServerRow} {e : SEvent}
    {t₂ : List ServerRow} {i : Nat}
    (hact : sIdProcessing t i) (h : SStep t e t₂)
    (hne : ∀ sp now, e ≠ .complete i sp now) : sIdProcessing t₂ i := by
  cases h with
  | push j sp rid act payload tag prio cq now hg =>
    by_cases hji : j = i
    · subst hji
      obtain ⟨r, hrm, hri, _, hrs⟩ := hg
      rw [hact r hrm hri] at hrs
      exact absurd hrs (by simp)
    · intro s hs hsi
      unfold spushUpdate at hs
      rcases List.mem_map.mp hs with ⟨r, hrm, hrs⟩
      by_cases hc : r.id = j
      · rw [if_pos hc] at hrs
        have : s.id = r.id := by rw [← hrs]; rfl
        rw [hsi] at this
        exact absurd (hc ▸ this.symm) hji
      · rw [if_neg hc] at hrs
        subst hrs
        exact hact r hrm hsi
  | peek j sp now hg =>
    by_cases hji : j = i
    · subst hji
      obtain ⟨r, hrm, hri, _, hrs⟩ := hg
      rw [hact r hrm hri] at hrs
      exact absurd hrs (by simp)
    · intro s hs hsi
      unfold speekUpdate at hs
      rcases List.mem_map.mp hs with ⟨r, hrm, hrs⟩
      by_cases hc : r.id = j
      · rw [if_pos hc] at hrs
        have : s.id = r.id := by rw [← hrs]
        rw [hsi] at this
        exact absurd (hc ▸ this.symm) hji
      · rw [if_neg hc] at hrs
        subst hrs
        exact hact r hrm hsi
  | complete j sp now2 hg =>
    have hji : j ≠ i := by
      intro hc
      exact hne sp now2 (by rw [hc])
    intro s hs hsi
    unfold scompleteUpdate at hs
    rcases List.mem_map.mp hs with ⟨r, hrm, hrs⟩
    by_cases hc : r.id = j
    · rw [if_pos hc] at hrs
      have : s.id = r.id := by rw [← hrs]
      rw [hsi] at this
      exact absurd (hc ▸ this.symm) hji
    · rw [if_neg hc] at hrs
      subst hrs
      exact hact r hrm hsi

/-- A `processing` id admits no further `peak_server_queue` claim. -/
theorem no_speek_of_processing {t : List ServerRow} {i : Nat} {sp : String}
    {now : Nat} {t₂ : List ServerRow}
    (hact : sIdProcessing t i) (h : SStep t (.peek i sp now) t₂) :
    False := by
  cases h with
  | peek a b c hg =>
    obtain ⟨r, hrm, hri, _, hrs⟩ := hg
    rw [hact r hrm hri] at hrs
    exact absurd hrs (by simp)

/-- From a state where the id is in `processing`, any later peek of the id
is preceded by a completion of the id. -/
theorem speek_needs_complete {i : Nat} :
    ∀ (a : List SEvent) (t : List ServerRow) (es : List SEvent)
      (t₂ : List ServerRow), STrace t es t₂ → sIdProcessing t i →
      ∀ (sp : String) (n : Nat) (b : List SEvent),
        es = a ++ .peek i sp n :: b →
        ∃ a1 sp2 nc a2, a = a1 ++ SEvent.complete i sp2 nc :: a2 := by
  intro a
  induction a with
  | nil =>
    intro t es t₂ htr hact sp n b hes
    subst hes
    cases htr with
    | cons _ _ _ _ _ hstep _ => exact absurd hstep (no_speek_of_processing hact)
  | cons e a ih =>
    intro t es t₂ htr hact sp n b hes
    subst hes
    cases htr with
    | cons _ _ tmid _ _ hstep htail =>
      by_cases hcomp : ∃ sp2 nc, e = SEvent.complete i sp2 nc
      · obtain ⟨sp2, nc, rfl⟩ := hcomp
        exact ⟨[], sp2, nc, a, rfl⟩
      · have hact2 : sIdProcessing tmid i := by
          refine sIdProcessing_preserved hact hstep ?_
          intro sp2 now hcon
          exact hcomp ⟨sp2, now, hcon⟩
        obtain ⟨a1, sp2, nc, a2, rfl⟩ := ih tmid _ _ htail hact2 sp n b rfl
        exact ⟨e :: a1, sp2, nc, a2, rfl⟩

/-- Server traces split at list concatenation. -/
theorem strace_split :
    ∀ (xs ys : List SEvent) (t t₂ : List ServerRow),
      STrace t (xs ++ ys) t₂ →
      ∃ u, STrace t xs u ∧ STrace u ys t₂ := by
  intro xs
  induction xs with
  | nil => intro ys t t₂ h; exact ⟨t, STrace.nil t, h⟩
  | cons e xs ih =>
    intro ys t t₂ h
    cases h with
    | cons _ _ tmid _ _ hstep htail =>
      obtain ⟨u, h1, h2⟩ := ih ys tmid t₂ htail
      exact ⟨u, STrace.cons _ _ _ _ _ hstep h1, h2⟩

/-- **C1.** In any serialized history of committed transactions, two peeks
that claim the same job row are separated by a completion of that row — so
between two successive completions at most one peek of the row succeeds and
two concurrent peeks never claim the same row (`SKIP LOCKED` claims are
atomic steps here) — and the same disjoint-claim property holds for
`peak_server_queue` on RPC server slots. -/
theorem C1_at_most_one_claim :
    (∀ (t0 : List JobRow) (es : List JobEvent) (t1 : List JobRow),
      JobTrace t0 es t1 → (t0.map JobRow.id).Nodup →
      ∀ (a c d : List JobEvent) (i : Nat) (p p2 : String) (n n2 : Nat),
        es = a ++ .peek i p n :: (c ++ .peek i p2 n2 :: d) →
        ∃ c1 nc c2, c = c1 ++ JobEvent.complete i nc :: c2) ∧
    (∀ (t0 : List ServerRow) (es : List SEvent) (t1 : List ServerRow),
      STrace t0 es t1 →
      ∀ (a c d : List SEvent) (i : Nat) (sp sp2 : String) (n n2 : Nat),
        es = a ++ .peek i sp n :: (c ++ .peek i sp2 n2 :: d) →
        ∃ c1 sp3 nc c2, c = c1 ++ SEvent.complete i sp3 nc :: c2) := by
  constructor
  · intro t0 es t1 htr hnd a c d i p p2 n n2 hes
    subst hes
    obtain ⟨u, htr1, htr2⟩ := jobTrace_split a _ t0 t1 htr
    have hndu : (u.map JobRow.id).Nodup := JobTrace.nodup_ids a t0 u htr1 hnd
    cases htr2 with
    | cons _ _ tmid _ _ hstep htail =>
      have hact : idActive tmid i := idActive_after_peek hndu hstep
      exact peek_needs_complete c tmid _ t1 htail hact p2 n2 d rfl
  · intro t0 es t1 htr a c d i sp sp2 n n2 hes
    subst hes
    obtain ⟨u, htr1, htr2⟩ := strace_split a _ t0 t1 htr
    cases htr2 with
    | cons _ _ tmid _ _ hstep htail =>
      have hact : sIdProcessing tmid i := sIdProcessing_after_peek hstep
      obtain ⟨c1, sp3, nc, c2, hsplit⟩ :=
        speek_needs_complete c tmid _ t1 htail hact sp2 n2 d rfl
      exact ⟨c1, sp3, nc, c2, hsplit⟩

/-- Witness for `C1_at_most_one_claim`: concrete four-step histories
`peek; complete; push; peek` on a one-slot job pool and a one-slot server
pool; the theorem locates the completion between the two peeks. -/
theorem C1_at_most_one_claim_witness :
    (∃ c1 nc c2, ([JobEvent.complete 1 1, JobEvent.push 1 "a" "d" 2] :
        List JobEvent) = c1 ++ JobEvent.complete 1 nc :: c2) ∧
    (∃ c1 sp3 nc c2,
      ([SEvent.complete 1 "s" 1, SEvent.push 1 "s" "r" "act" "p" "g" 0 none 2] :
        List SEvent) = c1 ++ SEvent.complete 1 sp3 nc :: c2) := by
  constructor
  · exact C1_at_most_one_claim.1
      [⟨1, "a", "x", none, none, none, false, true⟩] _ _
      (JobTrace.cons _ _ _ _ _ (JobStep.peek _ 1 "a" 0 (by decide))
        (JobTrace.cons _ _ _ _ _ (JobStep.complete _ 1 1 (by decide))
          (JobTrace.cons _ _ _ _ _ (JobStep.push _ 1 "a" "d" 2 (by decide))
            (JobTrace.cons _ _ _ _ _ (JobStep.peek _ 1 "a" 3 (by decide))
              (JobTrace.nil _)))))
      (by decide) []
      [JobEvent.complete 1 1, JobEvent.push 1 "a" "d" 2] [] 1 "a" "a" 0 3 rfl
  · exact C1_at_most_one_claim.2
      [⟨1, "s", "", "", "", none, "", .new_job, 0, none, none, none⟩] _ _
      (STrace.cons _ _ _ _ _ (SStep.peek _ 1 "s" 0 (by decide))
        (STrace.cons _ _ _ _ _ (SStep.complete _ 1 "s" 1 (by decide))
          (STrace.cons _ _ _ _ _
            (SStep.push _ 1 "s" "r" "act" "p" "g" 0 none 2 (by decide))
            (STrace.cons _ _ _ _ _ (SStep.peek _ 1 "s" 3 (by decide))
              (STrace.nil _)))))
      []
      [SEvent.complete 1 "s" 1, SEvent.push 1 "s" "r" "act" "p" "g" 0 none 2]
      [] 1 "s" "s" 0 3 rfl

/-! ## The remaining retry loops (claim C9)

The five retried operations not yet embedded above, translated with the
same conventions: per-attempt injected store outcomes, recorded sleeps and
loop-body counts. -/

def noJobMsg (i : Nat) : String := "No job found with id " ++ toString i

def markLockMsg (i maxR : Nat) : String :=
  "Could not lock job id " ++ toString i ++ " after " ++ toString maxR ++
    " attempts"

def markFatalMsg (i : Nat) : String :=
  "Error marking job " ++ toString i ++ " as completed"

/-- Result of a `mark_job_completed` call. -/
structure MarkJobResult where
  code : Int
  message : String
  table : List JobRow
  sleeps : List ℚ
  attempts : Nat
deriving DecidableEq, Repr

/-- The `while (attempt < max_retries)` loop of `mark_job_completed`:
`SELECT id WHERE id = $1 FOR UPDATE NOWAIT`, then the completing UPDATE; a
`lock not available` error retries after a linear `retry_delay` sleep (only
while budget remains), a missing row and any other error are fatal. -/
def markJobGo (t : List JobRow) (i : Nat) (delay : ℚ) (now maxR : Nat) :
    Nat → List PgOutcome → MarkJobResult
  | 0, _ => ⟨-1, markLockMsg i maxR, t, [], 0⟩
  | k + 1, env =>
    match env.headD .ok with
    | .ok =>
      if t.any (fun r => r.id == i) then
        ⟨0, "", completeUpdate t i now, [], 1⟩
      else ⟨-1, noJobMsg i, t, [], 1⟩
    | .lockNA =>
      if k = 0 then ⟨-1, markLockMsg i maxR, t, [], 1⟩
      else
        let rest := markJobGo t i delay now maxR k env.tail
        ⟨rest.code, rest.message, rest.table, delay :: rest.sleeps,
          rest.attempts + 1⟩
    | .fatalErr => ⟨-1, markFatalMsg i, t, [], 1⟩

/-- `mark_job_completed` of `kb_job_table.c`; `job_id <= 0` is rejected
before the loop (ids are `Nat` here, so `0` is the invalid id). -/
def mark_job_completed (t : List JobRow) (i maxR : Nat) (delay : ℚ)
    (now : Nat) (env : List PgOutcome) : MarkJobResult :=
  if i = 0 then ⟨-1, "job_id must be a valid integer", t, [], 0⟩
  else markJobGo t i delay now maxR maxR env

/-- Per-attempt store outcome for the serializable RPC-server loops:
40001/40P01 retries, any other failure is fatal. -/
inductive SPeekOutcome where
  | ok
  | serial
  | fatal
deriving DecidableEq, Repr

/-- The SELECT of `peak_server_queue`: `WHERE server_path = $1 AND
state = new_job ORDER BY priority DESC, request_timestamp ASC LIMIT 1
FOR UPDATE SKIP LOCKED`. -/
def selectNewJobSlot (t : List ServerRow) (sp : String) : Option ServerRow :=
  (t.filter fun r => decide (r.server_path = sp ∧ r.state = .new_job)).foldl
    (fun acc r =>
      match acc with
      | none => some r
      | some s => if betterServerSlot r s then some r else some s)
    none

/-- Result of a `peak_server_queue` call. -/
structure SPeekResult where
  row : Option ServerRow
  table : List ServerRow
  sleeps : List ℚ
  attempts : Nat
deriving DecidableEq, Repr

/-- The `while (attempt < retries)` loop of `peak_server_queue`: claim the
best `new_job` slot and set it `processing`; on a serialization failure
sleep `wait_time * 2 ^ attempt` — uncapped — while budget remains.  The
returned row is the one the SELECT loaded, still showing `new_job`. -/
def peakServerGo (t : List ServerRow) (sp : String) (w : ℚ) (now maxR : Nat) :
    Nat → List SPeekOutcome → SPeekResult
  | 0, _ => ⟨none, t, [], 0⟩
  | k + 1, env =>
    match env.headD .ok with
    | .ok =>
      match selectNewJobSlot t sp with
      | none => ⟨none, t, [], 1⟩
      | some r => ⟨some r, speekUpdate t r.id now, [], 1⟩
    | .serial =>
      if k = 0 then ⟨none, t, [], 1⟩
      else
        let rest := peakServerGo t sp w now maxR k env.tail
        ⟨rest.row, rest.table, w * 2 ^ (maxR - k) :: rest.sleeps,
          rest.attempts + 1⟩
    | .fatal => ⟨none, t, [], 1⟩

/-- `peak_server_queue` of `kb_rpc_server_table.c`. -/
def peak_server_queue (t : List ServerRow) (sp : String) (maxR : Nat)
    (w : ℚ) (now : Nat) (env : List SPeekOutcome) : SPeekResult :=
  peakServerGo t sp w now maxR maxR env

/-- Result of a `mark_job_completion` call: 1 completed, 0 not found, −1
error. -/
structure SCompleteResult where
  code : Int
  table : List ServerRow
  sleeps : List ℚ
  attempts : Nat
deriving DecidableEq, Repr

/-- The `while (attempt < retries)` loop of `mark_job_completion`: verify
`(id, server_path, state = processing) FOR UPDATE` — no match returns 0
(non-fatal false) — then set the slot `empty`; serialization failures retry
with `wait_time * 2 ^ attempt`. -/
def markCompletionGo (t : List ServerRow) (sp : String) (i : Nat) (w : ℚ)
    (now maxR : Nat) : Nat → List SPeekOutcome → SCompleteResult
  | 0, _ => ⟨-1, t, [], 0⟩
  | k + 1, env =>
    match env.headD .ok with
    | .ok =>
      if t.any (fun r =>
          decide (r.id = i ∧ r.server_path = sp ∧ r.state = .processing)) then
        ⟨1, scompleteUpdate t i now, [], 1⟩
      else ⟨0, t, [], 1⟩
    | .serial =>
      if k = 0 then ⟨-1, t, [], 1⟩
      else
        let rest := markCompletionGo t sp i w now maxR k env.tail
        ⟨rest.code, rest.table, w * 2 ^ (maxR - k) :: rest.sleeps,
          rest.attempts + 1⟩
    | .fatal => ⟨-1, t, [], 1⟩

/-- `mark_job_completion` of `kb_rpc_server_table.c`. -/
def mark_job_completion (t : List ServerRow) (sp : String) (i maxR : Nat)
    (w : ℚ) (now : Nat) (env : List SPeekOutcome) : SCompleteResult :=
  markCompletionGo t sp i w now maxR maxR env

/-- The row value the UPDATE of `clear_server_queue` writes: fresh random
UUID, empty payload, completion stamp, `state = empty`, client queue
cleared. -/
def clearedServerRow (r : ServerRow) (u : String) (now : Nat) : ServerRow :=
  { r with request_id := u, request_payload := emptyJsonPayload,
           completed_timestamp := some now, state := .empty,
           rpc_client_queue := none }

/-- The single UPDATE of `clear_server_queue` over all rows of the path;
`gen_random_uuid()` draws a fresh UUID per row, modelled by the positional
generator `g`. -/
def clearServerUpdate (t : List ServerRow) (sp : String) (g : Nat → String)
    (now : Nat) : List ServerRow :=
  t.enum.map fun pr =>
    if pr.2.server_path = sp then clearedServerRow pr.2 (g pr.1) now else pr.2

/-- Result of a `clear_server_queue` call. -/
structure ClearServerResult where
  count : Int
  table : List ServerRow
  sleeps : List ℚ
  attempts : Nat
deriving DecidableEq, Repr

/-- The `while (attempt < max_retries)` loop of `clear_server_queue`:
`SELECT 1 ... FOR UPDATE NOWAIT` (a 55P03 outcome retries after a constant
sleep while budget remains), then one UPDATE of every row of the path;
returns the affected count. -/
def clearServerGo (t : List ServerRow) (sp : String) (g : Nat → String)
    (delay : ℚ) (now : Nat) : Nat → List PgOutcome → ClearServerResult
  | 0, _ => ⟨-1, t, [], 0⟩
  | k + 1, env =>
    match env.headD .ok with
    | .ok =>
      ⟨(t.countP fun r => decide (r.server_path = sp) : Nat),
        clearServerUpdate t sp g now, [], 1⟩
    | .lockNA =>
      if k = 0 then ⟨-1, t, [], 1⟩
      else
        let rest := clearServerGo t sp g delay now k env.tail
        ⟨rest.count, rest.table, delay :: rest.sleeps, rest.attempts + 1⟩
    | .fatalErr => ⟨-1, t, [], 1⟩

/-- `clear_server_queue` of `kb_rpc_server_table.c`. -/
def clear_server_queue (t : List ServerRow) (sp : String) (g : Nat → String)
    (maxR : Nat) (delay : ℚ) (now : Nat) (env : List PgOutcome) :
    ClearServerResult :=
  clearServerGo t sp g delay now maxR env

/-- Per-attempt outcome of `peak_and_claim_reply_data`: the claiming UPDATE
runs (`ok`), hits 55P03 (`lockNA`), claims nothing although the EXISTS
probe still sees a new reply momentarily held by another worker
(`claimMiss`), or fails fatally. -/
inductive PeekReplyOutcome where
  | ok
  | lockNA
  | claimMiss
  | fatal
deriving DecidableEq, Repr

/-- The claimed row as the UPDATE's `RETURNING *` reports it:
`is_new_result` already cleared. -/
def claimedReplyRow (r : RPCRow) : RPCRow := { r with is_new_result := false }

/-- The claiming UPDATE: `SET is_new_result = FALSE WHERE id = (...)`. -/
def peekReplyUpdate (t : List RPCRow) (i : Nat) : List RPCRow :=
  t.map fun r => if r.id = i then claimedReplyRow r else r

/-- The inner SELECT of `peak_and_claim_reply_data`: `WHERE client_path = $1
AND is_new_result = TRUE ORDER BY response_timestamp ASC FOR UPDATE SKIP
LOCKED LIMIT 1`. -/
def selectNewReplySlot (t : List RPCRow) (cp : String) : Option RPCRow :=
  (t.filter fun r => decide (r.client_path = cp ∧ r.is_new_result = true)).foldl
    (fun acc r =>
      match acc with
      | none => some r
      | some s => if leCompletedAt r.response_timestamp s.response_timestamp
                  then some r else some s)
    none

/-- Result of a `peak_and_claim_reply_data` call. -/
structure PeekReplyResult where
  row : Option RPCRow
  table : List RPCRow
  sleeps : List ℚ
  attempts : Nat
deriving DecidableEq, Repr

/-- The `while (attempt < max_retries)` loop of `peak_and_claim_reply_data`.
No new reply at all returns NULL at once; on 55P03, or on a claim miss with
the probe still true, the code increments `attempt` and sleeps
`retry_delay` unconditionally — even when the loop then exits. -/
def peekReplyGo (t : List RPCRow) (cp : String) (delay : ℚ) :
    Nat → List PeekReplyOutcome → PeekReplyResult
  | 0, _ => ⟨none, t, [], 0⟩
  | k + 1, env =>
    match env.headD .ok with
    | .ok =>
      match selectNewReplySlot t cp with
      | none => ⟨none, t, [], 1⟩
      | some r => ⟨some (claimedReplyRow r), peekReplyUpdate t r.id, [], 1⟩
    | .fatal => ⟨none, t, [], 1⟩
    | .lockNA =>
      let rest := peekReplyGo t cp delay k env.tail
      ⟨rest.row, rest.table, delay :: rest.sleeps, rest.attempts + 1⟩
    | .claimMiss =>
      let rest := peekReplyGo t cp delay k env.tail
      ⟨rest.row, rest.table, delay :: rest.sleeps, rest.attempts + 1⟩

/-- `peak_and_claim_reply_data` of `kb_rpc_client_table.c` (its UPDATE sets
no timestamp, so the call takes no clock). -/
def peak_and_claim_reply_data (t : List RPCRow) (cp : String) (maxR : Nat)
    (delay : ℚ) (env : List PeekReplyOutcome) : PeekReplyResult :=
  peekReplyGo t cp delay maxR env

/-- **C9 (amended).** The retried operations split by loop guard.
`set_status_data` and `push_and_claim_reply_data` guard with
`attempt <= retries` and execute the transactional body at least once even
with zero retries: `set_status_data` at `retry_count = 0` runs the body
exactly once and succeeds when its statement succeeds, and
`push_and_claim_reply_data` runs the body exactly `max_retries + 1` times
before returning −1 under persistent transient failure.  Every other
retried operation — `peak_job_data`, `push_job_data`, `mark_job_completed`,
`push_stream_data` (whose attempt counter starts at 1), and the
`push_rpc_server_queue`, `peak_server_queue`, `mark_job_completion`,
`clear_server_queue`, `peak_and_claim_reply_data`, `clear_reply_queue`
loops — executes its body zero times when called with `max_retries = 0` and
fails immediately (−1 or NULL). -/
theorem C9_retry_budget
    (t : List JobRow) (p dj : String) (delay : ℚ) (now i : Nat)
    (env : List Bool) (envp envm : List PgOutcome)
    (ts : List StreamRow) (ps ds : String) (delays : ℚ) (nows : Nat)
    (envs : List Bool)
    (tv : List ServerRow) (sp act payload tag gen : String) (prio : Int)
    (w : ℚ) (nowv i2 : Nat) (envv : List RpcPushOutcome)
    (envps envps2 : List SPeekOutcome) (gv : Nat → String)
    (envcs : List PgOutcome)
    (tc : List RPCRow) (cp uuid spc actc tagc payloadc : String)
    (delayc : ℚ) (nowc maxRc : Nat) (envc envcr : List RpcClientOutcome)
    (envpr : List PeekReplyOutcome) (gc : Nat → String)
    (tt : List StatusRow) (pt dt : String) (delayt : ℚ) (newId : Nat)
    (envt : List Bool)
    (hp : p ≠ "") (hdelay : ¬ delay < 0) (hdj : dj ≠ "") (hi : i ≠ 0)
    (hps : ps ≠ "")
    (hsp : is_valid_ltree_path sp = true) (hact : act ≠ "") (htag : tag ≠ "")
    (hpt : pt ≠ "") (hdt : dt ≠ "") (hdelayt : ¬ delayt < 0) :
    ((peak_job_data t p 0 delay now env).attempts = 0 ∧
      (peak_job_data t p 0 delay now env).code = -1) ∧
    ((push_job_data t p dj 0 delay now envp).attempts = 0 ∧
      (push_job_data t p dj 0 delay now envp).code = -1) ∧
    ((mark_job_completed t i 0 delay now envm).attempts = 0 ∧
      (mark_job_completed t i 0 delay now envm).code = -1) ∧
    ((push_stream_data ts ps ds 0 delays nows envs).attempts = 0 ∧
      (push_stream_data ts ps ds 0 delays nows envs).code = -1) ∧
    ((push_rpc_server_queue tv sp none act payload tag prio none 0 w nowv gen
        envv).attempts = 0 ∧
      (push_rpc_server_queue tv sp none act payload tag prio none 0 w nowv gen
        envv).row = none) ∧
    ((peak_server_queue tv sp 0 w nowv envps).attempts = 0 ∧
      (peak_server_queue tv sp 0 w nowv envps).row = none) ∧
    ((mark_job_completion tv sp i2 0 w nowv envps2).attempts = 0 ∧
      (mark_job_completion tv sp i2 0 w nowv envps2).code = -1) ∧
    ((clear_server_queue tv sp gv 0 w nowv envcs).attempts = 0 ∧
      (clear_server_queue tv sp gv 0 w nowv envcs).count = -1) ∧
    ((peak_and_claim_reply_data tc cp 0 delayc envpr).attempts = 0 ∧
      (peak_and_claim_reply_data tc cp 0 delayc envpr).row = none) ∧
    ((clear_reply_queue tc cp gc 0 delayc nowc envcr).attempts = 0 ∧
      (clear_reply_queue tc cp gc 0 delayc nowc envcr).count = -1) ∧
    ((set_status_data tt pt dt 0 delayt newId envt).attempts = 1 ∧
      (envt.headD true = true →
        (set_status_data tt pt dt 0 delayt newId envt).code = 0)) ∧
    (1 ≤ (push_and_claim_reply_data tc cp uuid spc actc tagc payloadc maxRc
        delayc nowc envc).attempts) ∧
    (push_and_claim_reply_data tc cp uuid spc actc tagc payloadc maxRc delayc
        nowc (List.replicate (maxRc + 1) .err) =
      ⟨-1, tc, List.replicate maxRc delayc, maxRc + 1⟩) := by
  refine ⟨?_, ?_, ?_, ?_, ?_, ?_, ?_, ?_, ?_, ?_, ?_, ?_, ?_⟩
  · unfold peak_job_data
    rw [if_neg hp, if_neg hdelay]
    exact ⟨rfl, rfl⟩
  · unfold push_job_data
    rw [if_neg hp, if_neg hdj]
    exact ⟨rfl, rfl⟩
  · unfold mark_job_completed
    rw [if_neg hi]
    exact ⟨rfl, rfl⟩
  · unfold push_stream_data
    rw [if_neg hps]
    exact ⟨rfl, rfl⟩
  · unfold push_rpc_server_queue
    rw [if_neg (by simp [hsp])]
    simp only [ridOf]
    rw [if_neg hact, if_neg htag, if_neg (by simp)]
    exact ⟨rfl, rfl⟩
  · exact ⟨rfl, rfl⟩
  · exact ⟨rfl, rfl⟩
  · exact ⟨rfl, rfl⟩
  · exact ⟨rfl, rfl⟩
  · exact ⟨rfl, rfl⟩
  · unfold set_status_data
    rw [if_neg hpt, if_neg hdt, if_neg hdelayt]
    unfold setStatusGo
    by_cases he : envt.headD true = true
    · rw [if_pos he]
      exact ⟨rfl, fun _ => rfl⟩
    · rw [if_neg he]
      exact ⟨rfl, fun hc => absurd hc he⟩
  · unfold push_and_claim_reply_data pushReplyGo
    cases envc.headD .ok with
    | ok => cases selectFreeReplySlot tc cp <;> simp
    | err => by_cases hm : maxRc = 0 <;> simp [hm]
  · exact pushReplyGo_all_err tc cp uuid spc actc tagc payloadc delayc nowc
      maxRc

/-- Witness for `C9_retry_budget`: every loop invoked at zero retries on
concrete stores, plus a zero-retry `set_status_data` success and
`push_and_claim_reply_data` run. -/
theorem C9_retry_budget_witness :
    ((peak_job_data busyPool "a" 0 1 0 []).attempts = 0 ∧
      (peak_job_data busyPool "a" 0 1 0 []).code = -1) ∧
    ((push_job_data busyPool "a" "d" 0 1 0 []).attempts = 0 ∧
      (push_job_data busyPool "a" "d" 0 1 0 []).code = -1) ∧
    ((mark_job_completed busyPool 1 0 1 0 []).attempts = 0 ∧
      (mark_job_completed busyPool 1 0 1 0 []).code = -1) ∧
    ((push_stream_data [] "a" "d" 0 1 0 []).attempts = 0 ∧
      (push_stream_data [] "a" "d" 0 1 0 []).code = -1) ∧
    ((push_rpc_server_queue [] "a" none "x" "y" "z" 1 none 0 1 0 "u"
        []).attempts = 0 ∧
      (push_rpc_server_queue [] "a" none "x" "y" "z" 1 none 0 1 0 "u"
        []).row = none) ∧
    ((peak_server_queue [] "a" 0 1 0 []).attempts = 0 ∧
      (peak_server_queue [] "a" 0 1 0 []).row = none) ∧
    ((mark_job_completion [] "a" 1 0 1 0 []).attempts = 0 ∧
      (mark_job_completion [] "a" 1 0 1 0 []).code = -1) ∧
    ((clear_server_queue [] "a" uuidSeq 0 1 0 []).attempts = 0 ∧
      (clear_server_queue [] "a" uuidSeq 0 1 0 []).count = -1) ∧
    ((peak_and_claim_reply_data [] "c" 0 1 []).attempts = 0 ∧
      (peak_and_claim_reply_data [] "c" 0 1 []).row = none) ∧
    ((clear_reply_queue [] "c" uuidSeq 0 1 0 []).attempts = 0 ∧
      (clear_reply_queue [] "c" uuidSeq 0 1 0 []).count = -1) ∧
    ((set_status_data [] "a" "v" 0 1 7 []).attempts = 1 ∧
      (([] : List Bool).headD true = true →
        (set_status_data [] "a" "v" 0 1 7 []).code = 0)) ∧
    (1 ≤ (push_and_claim_reply_data [] "c" "u" "s" "x" "g" "y" 0 1 0
        []).attempts) ∧
    (push_and_claim_reply_data [] "c" "u" "s" "x" "g" "y" 0 1 0
        (List.replicate 1 .err) = ⟨-1, [], List.replicate 0 1, 1⟩) :=
  C9_retry_budget busyPool "a" "d" 1 0 1 [] [] [] [] "a" "d" 1 0 []
    [] "a" "x" "y" "z" "u" 1 1 0 1 [] [] [] uuidSeq []
    [] "c" "u" "s" "x" "g" "y" 1 0 0 [] [] [] uuidSeq
    [] "a" "v" 1 7 []
    (by decide) (not_lt.mpr zero_le_one) (by decide) (by decide) (by decide)
    (by decide) (by decide) (by decide) (by decide) (by decide)
    (not_lt.mpr zero_le_one)

end KB
